import Mathlib

/-
Shallow embedding of the patch/spec synchronization engine of
git-buildpackage-rpm, covering:
  - gbp/scripts/common/pq.py  (pq branch naming, gbp command parsing,
    patch file writing, patch filename derivation)
  - gbp/scripts/pq.py         (generate_patches, export_patches,
    import_quilt_patches with the time-machine retry loop)
  - gbp/rpm/__init__.py       (SpecFile.parse_content, SpecFile.update_patches)

Python strings are Lean Strings; line buffers are lists of strings (the
trailing newline of each line kept by readlines is elided, see the doc
comments where this matters).  Python exceptions are an explicit error
type threaded through Except; mutable state is passed explicitly.
-/

namespace GbpRpm

/-- Python exception kinds that the embedded code can raise.  A GbpError is a
controlled, user visible failure; the other constructors are uncontrolled
interpreter level exceptions. -/
inductive PyErr where
  | duplicatePatch      -- GbpError "RPM error while parsing spec, duplicate patches found"
  | typeError           -- e.g. None + 1 / None - 1
  | keyError            -- dict lookup of a missing key
  | indexError          -- list index out of range
  | valueError          -- int() on a non numeric string
  | optParseError       -- optparse rejecting an unknown option
deriving Repr, DecidableEq

/-- Characters matched by the regex whitespace class. -/
def isPySpace (c : Char) : Bool :=
  c = ' ' || c = '\t' || c = '\n' || c = '\r' || c = '\x0b' || c = '\x0c'

def lstripC (cs : List Char) : List Char := cs.dropWhile isPySpace

def rstripC (cs : List Char) : List Char := (cs.reverse.dropWhile isPySpace).reverse

def stripC (cs : List Char) : List Char := rstripC (lstripC cs)

/-- Python str.strip() with no arguments. -/
def pyStrip (s : String) : String := String.mk (stripC s.data)

/-- Python str.rstrip() with no arguments. -/
def pyRstrip (s : String) : String := String.mk (rstripC s.data)

/-- Case insensitive literal prefix match: the pattern is given in lower
case, and on success the unconsumed rest of the input is returned. -/
def ciPre : List Char → List Char → Option (List Char)
  | [], cs => some cs
  | _ :: _, [] => none
  | p :: ps, c :: cs => if c.toLower = p then ciPre ps cs else none

/-- Case sensitive literal prefix match returning the rest. -/
def litPre : List Char → List Char → Option (List Char)
  | [], cs => some cs
  | _ :: _, [] => none
  | p :: ps, c :: cs => if c = p then litPre ps cs else none

/-- Python substring containment, the binary `in` on strings. -/
def pyInStr (needle hay : String) : Bool :=
  hay.data.tails.any (fun t => needle.data.isPrefixOf t)

/-- Python str.split() with no arguments: split on whitespace runs,
dropping empty fields. -/
def pySplitWs (s : String) : List String :=
  (s.data.splitOnP isPySpace).filterMap
    (fun cs => if cs.isEmpty then none else some (String.mk cs))

/-- Split a character list at newline characters, keeping empty pieces. -/
def splitLinesC : List Char → List (List Char)
  | [] => [[]]
  | '\n' :: rest => [] :: splitLinesC rest
  | c :: rest =>
      match splitLinesC rest with
      | l :: ls => (c :: l) :: ls
      | [] => [[c]]

/-- Python str.splitlines() restricted to newline separators. -/
def pySplitlines (s : String) : List String :=
  if s.data.isEmpty then []
  else
    let parts := (splitLinesC s.data).map String.mk
    if s.data.getLast? = some '\n' then parts.dropLast else parts

/-- Join strings with a separator (str.join). -/
def joinWith (sep : String) : List String → String
  | [] => ""
  | [x] => x
  | x :: xs => x ++ sep ++ joinWith sep xs

/-- The character of a single decimal digit. -/
def digitChar (n : Nat) : Char := Char.ofNat (48 + n)

/-- Worker for the decimal rendering, structurally recursive on a fuel
argument so that it reduces definitionally; the fuel is always sufficient
when it exceeds the value. -/
def natDigitsAux : Nat → Nat → List Char
  | 0, n => [digitChar n]
  | fuel + 1, n =>
      if n < 10 then [digitChar n]
      else natDigitsAux fuel (n / 10) ++ [digitChar (n % 10)]

/-- Decimal digit list of a natural number, most significant first; this is
the rendering that Python %d produces for non negative integers. -/
def natDigits (n : Nat) : List Char := natDigitsAux n n

/-- Decimal rendering of a natural number. -/
def natRepr (n : Nat) : String := String.mk (natDigits n)

/-- Numeric value of a digit character. -/
def charToDigit (c : Char) : Nat := c.toNat - 48

/-- Value of a most-significant-first digit list. -/
def digitsToNat (cs : List Char) : Nat :=
  cs.foldl (fun a c => a * 10 + charToDigit c) 0

/-- Python %04d: pad the decimal rendering with leading zeros to width 4. -/
def pad4 (n : Nat) : String :=
  String.mk (List.replicate (4 - (natDigits n).length) '0' ++ natDigits n)

/-- Python list slicing s[:n] with a possibly negative bound. -/
def pySliceTo (s : String) (n : Int) : String :=
  if n ≥ 0 then String.mk (s.data.take n.toNat)
  else String.mk (s.data.take (s.data.length - (-n).toNat))

/-- Python list.insert for line buffers: negative indices clamp towards the
front, indices past the end append. -/
def pyInsert (l : List String) (i : Int) (x : String) : List String :=
  let n : Nat := if i < 0 then (l.length : Int) + i |>.toNat else i.toNat
  (l.take n) ++ x :: (l.drop n)

/-- Python list.pop(i): remove the element at index i, with negative
wrap-around, raising IndexError when out of range. -/
def pyPop (l : List String) (i : Int) : Except PyErr (List String) :=
  let n : Int := if i < 0 then (l.length : Int) + i else i
  if h : 0 ≤ n ∧ n < (l.length : Int) then
    .ok ((l.take n.toNat) ++ (l.drop (n.toNat + 1)))
  else .error .indexError

/-- Python list indexing l[i] with negative wrap-around, raising IndexError
when out of range. -/
def pyGetIdx (l : List String) (i : Int) : Except PyErr String :=
  let n : Int := if i < 0 then (l.length : Int) + i else i
  if h : 0 ≤ n ∧ n < (l.length : Int) then
    .ok (l.get ⟨n.toNat, by omega⟩)
  else .error .indexError

/-- Python int() on one whitespace-free token: optional sign then decimal
digits. -/
def parseIntTok (s : String) : Option Int :=
  match s.data with
  | [] => none
  | c :: rest =>
      if c = '-' then
        if rest ≠ [] ∧ rest.all Char.isDigit then some (-(digitsToNat rest : Int)) else none
      else if c = '+' then
        if rest ≠ [] ∧ rest.all Char.isDigit then some ((digitsToNat rest : Int)) else none
      else
        if (c :: rest).all Char.isDigit then some ((digitsToNat (c :: rest) : Int)) else none

/-! ## gbp/scripts/common/pq.py -/

/-- Patch-queue branch naming: the VALUE of
gbp.scripts.common.pq.is_pq_branch(branch, options) under the default
pattern DEFAULT_PQ_BRANCH_NAME = "patch-queue/%(branch)s" (the CLI of
gbp/scripts/pq.py defines no pq-branch option, so pq_branch_match always
compiles this default into the anchored regex with one \S+ group).  Note
the function has a REQUIRED second options parameter; the call sites in
gbp/scripts/pq.py pass only the branch, which raises TypeError instead of
reaching this computation — that call is modeled by is_pq_branch_one_arg
below. -/
def is_pq_branch (branch : String) : Bool :=
  match litPre "patch-queue/".data branch.data with
  | some rest => ¬ rest.isEmpty && rest.all (fun c => ¬ isPySpace c)
  | none => false

/-- gbp.scripts.common.pq.pq_branch_name: None on a branch that is already a
patch-queue branch. -/
def pq_branch_name (branch : String) : Option String :=
  if is_pq_branch branch then none else some ("patch-queue/" ++ branch)

/-- gbp.scripts.common.pq.pq_branch_base: the %(branch)s group of the match,
None when the name does not match the pattern. -/
def pq_branch_base (branch : String) : Option String :=
  match litPre "patch-queue/".data branch.data with
  | some rest =>
      if ¬ rest.isEmpty && rest.all (fun c => ¬ isPySpace c)
      then some (String.mk rest) else none
  | none => none

/-- Match of the deprecated topic regex gbp-pq-topic:\s*(?P<topic>\S.*)
(re.match, case insensitive) against one body line. -/
def matchOldTopic (line : String) : Option String :=
  match ciPre "gbp-pq-topic:".data line.data with
  | some rest =>
      let t := rest.dropWhile isPySpace
      if t.isEmpty then none else some (String.mk t)
  | none => none

/-- gbp.scripts.pq.parse_old_style_topic: scan the commit body for
gbp-pq-topic lines; the last one wins, matched lines are dropped from the
body, every kept line gets its newline back. -/
def parse_old_style_topic (body : String) : String × String :=
  let step := fun (acc : String × String) (line : String) =>
    match matchOldTopic line with
    | some t => (acc.1, t)
    | none => (acc.1 ++ line ++ "\n", acc.2)
  let r := (pySplitlines body).foldl step ("", "")
  (r.2, r.1)

/-- Match of the command regex ^<tag>:\s*(?P<cmd>[a-z-]+)(\s+(?P<args>\S.*))?
(re.match, case insensitive) against one body line; returns the lower-cased
command and the optional argument string. -/
def matchCmdLine (tag : String) (line : String) : Option (String × Option String) :=
  match ciPre (tag.data.map Char.toLower ++ [':']) line.data with
  | some rest =>
      let r1 := rest.dropWhile isPySpace
      let run := r1.takeWhile (fun c => c.isAlpha || c = '-')
      if run.isEmpty then none
      else
        let after := r1.drop run.length
        let args :=
          if (after.takeWhile isPySpace).isEmpty then none
          else
            let a := after.dropWhile isPySpace
            if a.isEmpty then none else some (String.mk a)
        some (String.mk (run.map Char.toLower), args)
  | none => none

/-- Dict of parsed commands: association list with Python dict update
semantics (replace in place, append new keys). -/
def dictSet (d : List (String × Option String)) (k : String) (v : Option String) :
    List (String × Option String) :=
  if d.any (fun kv => kv.1 = k) then
    d.map (fun kv => if kv.1 = k then (k, v) else kv)
  else d ++ [(k, v)]

def dictUpdate (d e : List (String × Option String)) : List (String × Option String) :=
  e.foldl (fun acc kv => dictSet acc kv.1 kv.2) d

def dictHas (d : List (String × Option String)) (k : String) : Bool :=
  d.any (fun kv => kv.1 = k)

def dictGet (d : List (String × Option String)) (k : String) : Option (Option String) :=
  (d.find? (fun kv => kv.1 = k)).map (·.2)

/-- gbp.scripts.common.pq.parse_gbp_commands, with the argument types used at
its call sites in gbp/scripts/pq.py: noarg_cmds, arg_cmds and filter_cmds are
plain STRINGS there (the parenthesised singletons in the source are not
tuples), so the membership tests are Python substring tests. -/
def parse_gbp_commands (body : String) (cmd_tag : String)
    (noarg_cmds : String) (arg_cmds : String) (filter_cmds : Option String) :
    List (String × Option String) × String :=
  let step := fun (acc : List (String × Option String) × List String) (line : String) =>
    match matchCmdLine cmd_tag line with
    | some (cmd, args) =>
        let cmds :=
          if ¬ arg_cmds.isEmpty && pyInStr cmd arg_cmds then
            match args with
            | some a => dictSet acc.1 cmd (some a)
            | none => acc.1      -- warning logged, command ignored
          else if ¬ noarg_cmds.isEmpty && pyInStr cmd noarg_cmds then
            dictSet acc.1 cmd args
          else acc.1             -- unknown command, warning logged
        let keep :=
          match filter_cmds with
          | none => true
          | some f => ¬ pyInStr cmd f
        (cmds, if keep then acc.2 ++ [line] else acc.2)
    | none => (acc.1, acc.2 ++ [line])
  let r := (pySplitlines body).foldl step ([], [])
  (r.1, joinWith "\n" r.2)

/-- Author block of a commit as the patch writer needs it; datestr is the
already formatted strftime rendering supplied by the collaborator. -/
structure PatchAuthor where
  name : String
  email : String
  datestr : String
deriving Repr, DecidableEq

/-- The slice of repo.get_commit_info consumed by the patch generation code;
diff is the text repo.diff returns for the commit and patchname the
filesystem safe slug of the subject computed by the collaborator. -/
structure CommitData where
  id : String
  subject : String
  body : String
  patchname : String
  author : PatchAuthor
  diff : String
deriving Repr, DecidableEq

/-- Git compatible quoting of the author name in write_patch_file: quote
when one of the special characters occurs. -/
def pyQuoteName (n : String) : String :=
  if n.data.any (fun c => c ∈ [',', '.', '@', '(', ')', '[', ']', '\\', ':', ';'])
  then "\"" ++ n ++ "\"" else n

/-- Rendering of the mail style message produced via email.message.Message in
write_patch_file, for the plain ASCII short-header case: From, Date and
Subject headers, a blank separator line, then the payload (the commit body
right-stripped with one newline back) when the body is non empty. -/
def renderPatchMail (author : PatchAuthor) (subject body : String) : String :=
  "From: " ++ pyQuoteName author.name ++ " <" ++ author.email ++ ">\n" ++
  "Date: " ++ author.datestr ++ "\n" ++
  "Subject: " ++ subject ++ "\n" ++
  "\n" ++
  (if body ≠ "" then pyRstrip body ++ "\n" else "")

/-- gbp.scripts.common.pq.write_patch_file: no output at all on an empty
diff; otherwise the file content is the mail header block, the body, a
literal separator line and the diff verbatim, and the filename is returned.
The IOError path (unwritable file) is outside the model, the claim under
check assumes a writable path.  Result: (returned filename, written file
content). -/
def write_patch_file (filename : String) (author : PatchAuthor)
    (subject body diff : String) : Option (String × String) :=
  if diff = "" then none
  else some (filename, renderPatchMail author subject body ++ "---\n" ++ diff)

/-- os.path.join for the two argument uses in this code. -/
def pathJoin (a b : String) : String :=
  if b.data.head? = some '/' then b
  else if a = "" then b
  else if a.data.getLast? = some '/' then a ++ b
  else a ++ "/" ++ b

/-- Filename and path derivation of format_patch (gbp/scripts/common/pq.py
lines 275-286): 4 digit ordinal prefix when numbering, slug truncated to the
63 byte budget, and the '-<len(series)>' rename on a collision with a path
already registered in the series. -/
def deriveFilepath (outdir : String) (patchname : String) (series : List String)
    (numbered : Bool) : String × String :=
  let num_pre := pad4 (series.length + 1) ++ "-"
  let suffix := ".patch"
  let base_maxlen : Int := 63 - (num_pre.length : Int) - (suffix.length : Int)
  let base := pySliceTo patchname base_maxlen
  let filename := (if numbered then num_pre else "") ++ base ++ suffix
  let filepath := pathJoin outdir filename
  if filepath ∈ series then
    let presuffix := "-" ++ natRepr series.length
    let base2 := pySliceTo base (base_maxlen - (presuffix.length : Int)) ++ presuffix
    let filename2 := (if numbered then num_pre else "") ++ base2 ++ suffix
    (filename2, pathJoin outdir filename2)
  else (filename, filepath)

/-- gbp.scripts.common.pq.format_patch with path_exclude_regex = None (the
only way gbp/scripts/pq.py calls it): the include path list is then ['.'],
always non empty, so the diff is always requested.  Returns the written file
(path and content) when one was produced, and the new series. -/
def format_patch (outdir : String) (ci : CommitData) (series : List String)
    (numbered : Bool) (topic : String) :
    Option (String × String) × List String :=
  let outdir2 := pathJoin outdir topic
  let fp := deriveFilepath outdir2 ci.patchname series numbered
  match write_patch_file fp.2 ci.author ci.subject ci.body ci.diff with
  | some w => (some w, series ++ [w.1])
  | none => (none, series)

/-! ## gbp/scripts/pq.py -/

/-- PATCH_DIR of gbp/scripts/pq.py. -/
def PATCH_DIR : String := "debian/patches/"

/-- Accumulated effects of generate_patches: patch files written (path and
content), the series list, and whether any format_patch call ran (each call
creates the output directory with makedirs before deciding about the
diff). -/
structure GenAcc where
  written : List (String × String)
  series : List String
  madeDir : Bool
deriving Repr, DecidableEq

/-- One commit step of gbp.scripts.pq.generate_patches, lines 78-103 of the
source.  Faithful to the source, cmds_gbp (the commands parsed for the
generic gbp tag) is computed and then discarded: line 88 reads
cmds.update(cmds), a self update, so only old style topics and gbp-pq tag
commands reach the ignore/topic decision. -/
def generate_one (numbered : Bool) (acc : GenAcc) (ci : CommitData) : GenAcc :=
  let ot := parse_old_style_topic ci.body
  let topic := ot.1
  let body1 := ot.2
  let cmds0 : List (String × Option String) :=
    if topic ≠ "" then [("topic", some topic)] else []
  let g := parse_gbp_commands body1 "gbp" "ignore" "topic" (some "topic")
  let body2 := g.2
  -- cmds.update(cmds): no-op, g.1 is dropped
  let gpq := parse_gbp_commands body2 "gbp-pq" "ignore" "topic" (some "topic")
  let body3 := gpq.2
  let cmds := dictUpdate cmds0 gpq.1
  if ¬ dictHas cmds "ignore" then
    let topic2 :=
      match dictGet cmds "topic" with
      | some (some t) => t
      | some none => topic
      | none => topic
    let ci2 := { ci with body := body3 }
    let r := format_patch PATCH_DIR ci2 acc.series numbered topic2
    { written := acc.written ++ (r.1.map (fun w => [w])).getD [],
      series := r.2,
      madeDir := true }
  else
    acc      -- 'Ignoring commit' is logged, nothing is produced

/-- gbp.scripts.pq.generate_patches over the commits between start and end,
oldest first (the reversed rev-list of the source). -/
def generate_patches (commits : List CommitData) (numbered : Bool) : GenAcc :=
  commits.foldl (generate_one numbered) { written := [], series := [], madeDir := false }

/-- Controlled GbpError outcomes of the sync engine operations. -/
inductive GbpErr where
  | alreadyOnPq      -- "Already on a patch-queue branch ... - doing nothing."
  | pqExists         -- "Patch queue branch ... already exists. Try 'rebase' instead."
  | cannotCreatePq   -- "Cannot create patch-queue branch ..."
  | couldntApply     -- "Couldn't apply patches"
  | pyTypeError      -- TypeError: is_pq_branch() takes exactly 2 arguments (1 given)
deriving Repr, DecidableEq

/-- The call "is_pq_branch(branch)" exactly as gbp/scripts/pq.py writes it
(line 174 in export_patches, line 249 in import_quilt_patches): the imported
definition gbp.scripts.common.pq.is_pq_branch (common/pq.py line 67) has a
second REQUIRED parameter options which these call sites omit, so the call
raises TypeError before the branch name is even inspected.  Both script
entry points therefore crash unconditionally. -/
def is_pq_branch_one_arg (branch : String) : Except GbpErr Bool :=
  .error .pyTypeError

/-- The branch state of the collaborator git repository. -/
structure RepoFs where
  branches : List String
  current : String
deriving Repr, DecidableEq

/-- A quilt patch of the series as the import loop needs it. -/
structure QPatch where
  path : String
deriving Repr, DecidableEq

/-- Outcome of import_quilt_patches_body: final repository state, whether the
scratch safe directory was created and whether it still exists afterwards,
the number of hard resets performed (one per failed candidate attempt), the
commit the queue was successfully based on, and the error if any. -/
structure ImportOut where
  repo : RepoFs
  scratchMade : Bool
  scratchExists : Bool
  resets : Nat
  basedOn : Option String
  err : Option GbpErr
deriving Repr, DecidableEq

/-- The time-machine retry loop of import_quilt_patches_body (gbp/scripts/pq.py
lines 276-302).  For each candidate commit, newest first: create the queue
branch there, switch to it, apply the series; on the first failing patch
hard-reset, switch back to base, delete the queue branch and continue with
the next older candidate; the for-else raises "Couldn't apply patches" when
the candidates are exhausted. -/
def importLoop (pq base : String) (queue : List QPatch)
    (applies : String → QPatch → Bool) :
    List String → RepoFs → Nat → RepoFs × Nat × Option String × Option GbpErr
  | [], r, resets => (r, resets, none, some .couldntApply)
  | c :: rest, r, resets =>
      if pq ∈ r.branches then
        (r, resets, none, some .cannotCreatePq)
      else
        let r1 : RepoFs := { branches := pq :: r.branches, current := pq }
        if queue.all (applies c) then
          (r1, resets, some c, none)
        else
          importLoop pq base queue applies rest
            { branches := r1.branches.erase pq, current := base } (resets + 1)

/-- The body of gbp.scripts.pq.import_quilt_patches PAST its first
statement (pq.py lines 249-306 read as if the entry is_pq_branch call
succeeded): as written the function raises TypeError at line 249 before any
of this runs, see import_quilt_patches below.  The pq branch helpers are
applied with the default naming pattern (the configuration of this CLI
carries no pq-branch attribute).  The scratch copy of the patch directory
(safe_patches) is made when more than one candidate commit exists; this
code removes it only on the successful path after the loop, an exception
propagates before the rmtree. -/
def import_quilt_patches_body (r : RepoFs) (branch : String) (commits : List String)
    (queue : List QPatch) (applies : String → QPatch → Bool) (force : Bool) :
    ImportOut :=
  if is_pq_branch branch then
    if force then
      let base := (pq_branch_base branch).getD ""
      importRest { r with current := base } base ("patch-queue/" ++ base)
        commits queue applies force
    else
      { repo := r, scratchMade := false, scratchExists := false,
        resets := 0, basedOn := none, err := some .alreadyOnPq }
  else
    importRest r branch ("patch-queue/" ++ branch) commits queue applies force
where
  /-- safe_patches, series read and the retry loop, after the branch checks. -/
  importCore (r : RepoFs) (branch pq : String) (commits : List String)
      (queue : List QPatch) (applies : String → QPatch → Bool) : ImportOut :=
    let scratch := commits.length > 1       -- safe_patches tmpdir
    let lp := importLoop pq branch queue applies commits r 0
    match lp.2.2.2 with
    | some e =>
        -- the raise propagates before the rmtree of the tmpdir
        { repo := lp.1, scratchMade := scratch, scratchExists := scratch,
          resets := lp.2.1, basedOn := none, err := some e }
    | none =>
        -- success: "if tmpdir: shutil.rmtree(tmpdir)"
        { repo := lp.1, scratchMade := scratch, scratchExists := false,
          resets := lp.2.1, basedOn := lp.2.2.1, err := none }
  /-- the has_branch / force / drop_pq check of the source. -/
  importRest (r : RepoFs) (branch pq : String) (commits : List String)
      (queue : List QPatch) (applies : String → QPatch → Bool) (force : Bool) :
      ImportOut :=
    if pq ∈ r.branches then
      if force then
        importCore { r with branches := r.branches.erase pq } branch pq
          commits queue applies                           -- drop_pq
      else
        { repo := r, scratchMade := false, scratchExists := false,
          resets := 0, basedOn := none, err := some .pqExists }
    else importCore r branch pq commits queue applies

/-- gbp.scripts.pq.import_quilt_patches as it actually executes: its first
statement is "if is_pq_branch(branch):" (pq.py line 249), a one-argument
call of the two-parameter common/pq.py definition, so every invocation
raises TypeError there — before safe_patches, the series read and the retry
loop.  The remainder of the function is import_quilt_patches_body. -/
def import_quilt_patches (r : RepoFs) (branch : String) (commits : List String)
    (queue : List QPatch) (applies : String → QPatch → Bool) (force : Bool) :
    Except GbpErr ImportOut := do
  let _ ← is_pq_branch_one_arg branch
  .ok (import_quilt_patches_body r branch commits queue applies force)

/-- Outcome of export_patches_body: the on-disk patch directory (None when the
directory does not exist, otherwise its files as path-content pairs, the
series file included once written), repository state, and whether the
"No patches ... - nothing to do." branch was taken. -/
structure ExportOut where
  dir : Option (List (String × String))
  repo : RepoFs
  nothingToDo : Bool
deriving Repr, DecidableEq

/-- os.path.relpath(p, PATCH_DIR) for paths below the patch directory. -/
def relToPatchDir (p : String) : String :=
  match litPre PATCH_DIR.data p.data with
  | some rest => String.mk rest
  | none => p

/-- The body of gbp.scripts.pq.export_patches PAST its first statement
(pq.py lines 174-209 read as if the entry is_pq_branch call succeeded, with
options.commit = False): as written the function raises TypeError at line
174 before any of this runs, see export_patches below.  In this code the
existing patch directory is removed unconditionally (rmtree, ENOENT
tolerated) before the patches are generated; the series file is only
written when at least one patch was produced, otherwise the nothing-to-do
branch is taken; drop_pq runs afterwards when requested. -/
def export_patches_body (dir0 : Option (List (String × String))) (r : RepoFs)
    (branch : String) (commits : List CommitData)
    (numbered dropOpt : Bool) : ExportOut :=
  let bb : String × RepoFs :=
    if is_pq_branch branch then
      let base := (pq_branch_base branch).getD ""
      (base, { r with current := base })
    else (branch, r)
  let branch2 := bb.1
  let r1 := bb.2
  -- shutil.rmtree(PATCH_DIR); ENOENT is tolerated
  let gen := generate_patches commits numbered
  let dir1 : Option (List (String × String)) :=
    if gen.madeDir then some gen.written else none
  let seriesContent :=
    joinWith "" ((gen.series.map relToPatchDir).map (fun p => p ++ "\n"))
  let dir2 :=
    if gen.series ≠ [] then
      dir1.map (fun fs => fs ++ [(PATCH_DIR ++ "series", seriesContent)])
    else dir1
  let r2 :=
    if dropOpt then
      match pq_branch_name branch2 with
      | some pq => { r1 with branches := r1.branches.erase pq }
      | none => r1
    else r1
  { dir := dir2, repo := r2, nothingToDo := gen.series = [] }

/-- gbp.scripts.pq.export_patches as it actually executes: its first
statement is "if is_pq_branch(branch):" (pq.py line 174), a one-argument
call of the two-parameter common/pq.py definition, so every invocation
raises TypeError there — before the unconditional rmtree of the patch
directory, before generate_patches and before the nothing-to-do report.
The remainder of the function is export_patches_body. -/
def export_patches (dir0 : Option (List (String × String))) (r : RepoFs)
    (branch : String) (commits : List CommitData)
    (numbered dropOpt : Bool) : Except GbpErr ExportOut := do
  let _ ← is_pq_branch_one_arg branch
  .ok (export_patches_body dir0 r branch commits numbered dropOpt)

/-! ## gbp/rpm/__init__.py : SpecFile parse_content and update_patches

SpecFile.content is the line buffer from readlines; each entry there keeps
its trailing newline.  The model stores lines WITHOUT the newline: the only
observable effect of the newline is on regexes ending in $ or an optional
whitespace-anchored group, and the matchers below reproduce the behaviour
the regexes have on newline-terminated lines (see patchMacroMatch).  The
rpm-python reconciliation pass of the constructor (macro expansion of
declared names) is the identity on macro-free names and is not modelled. -/

/-- One entry of the SpecFile.patches dict; applyFlag is the dict key
'apply'. -/
structure PatchEntry where
  name : String
  filename : String
  applyFlag : Bool
  strip : String
  macro_linenum : Option Int
  autoupdate : Bool
  tag_linenum : Option Int
deriving Repr, DecidableEq

/-- One entry of the SpecFile.sources dict. -/
structure SourceEntry where
  name : String
  filename : String
  tag_linenum : Int
deriving Repr, DecidableEq

/-- The mutable state of a SpecFile object that parse_content and
update_patches touch. -/
structure SpecState where
  content : List String
  patches : List (Nat × PatchEntry)
  sources : List (Nat × SourceEntry)
deriving Repr, DecidableEq

/-- Association list helpers with Python dict semantics: unique keys,
updates in place, new keys appended. -/
def alookup {A : Type} (l : List (Nat × A)) (k : Nat) : Option A :=
  (l.find? (fun kv => kv.1 = k)).map (fun kv => kv.2)

def amem {A : Type} (l : List (Nat × A)) (k : Nat) : Bool :=
  l.any (fun kv => kv.1 = k)

def aset {A : Type} (l : List (Nat × A)) (k : Nat) (v : A) : List (Nat × A) :=
  if amem l k then l.map (fun kv => if kv.1 = k then (k, v) else kv)
  else l ++ [(k, v)]

def aerase {A : Type} (l : List (Nat × A)) (k : Nat) : List (Nat × A) :=
  l.filter (fun kv => ¬ kv.1 = k)

def akeys {A : Type} (l : List (Nat × A)) : List Nat := l.map (fun kv => kv.1)

/-- Insertion sort on Nat, for the sorted() calls on dict keys. -/
def insSorted (x : Nat) : List Nat → List Nat
  | [] => [x]
  | y :: ys => if x ≤ y then x :: y :: ys else y :: insSorted x ys

def sortNat (l : List Nat) : List Nat := l.foldr insSorted []

/-- Insertion sort on Int, for the sorted line number lists. -/
def insSortedI (x : Int) : List Int → List Int
  | [] => [x]
  | y :: ys => if x ≤ y then x :: y :: ys else y :: insSortedI x ys

def sortInt (l : List Int) : List Int := l.foldr insSortedI []

/-- The dict keys of SpecFile.patches in sorted order.  Python 2 dict
iteration order is unspecified; every place update_patches iterates raw
keys the result is order independent (max accumulators, removals and rm
line lists that are sorted before use), so the model fixes sorted order. -/
def asortedKeys {A : Type} (l : List (Nat × A)) : List Nat := sortNat (akeys l)

/-- Expect one specific character at the head, returning the rest. -/
def expectChar (ch : Char) : List Char → Option (List Char)
  | c :: r => if c = ch then some r else none
  | [] => none

/-- Match of gbptag_re, ^\s*#\s*gbp(?P<tagname>[a-z]+)\s*:\s*(?P<data>\S.*)\s*$
(re.I): returns the lower-cased tag name and the data text. -/
def gbptagMatch (line : String) : Option (String × String) :=
  match expectChar '#' (lstripC line.data) with
  | some r1 =>
      match ciPre "gbp".data (r1.dropWhile isPySpace) with
      | some r3 =>
          let run := r3.takeWhile (fun c => c.isAlpha)
          if run.isEmpty then none
          else
            match expectChar ':' ((r3.drop run.length).dropWhile isPySpace) with
            | some r5 =>
                let d := r5.dropWhile isPySpace
                if d.isEmpty then none
                else some (String.mk (run.map Char.toLower), String.mk d)
            | none => none
      | none => none
  | none => none

/-- Match of source_re, ^Source(?P<srcnum>[0-9]+)?\s*:\s*(?P<name>[^\s].*[^\s])\s*$
(re.I): the name group needs at least two characters. -/
def sourceMatch (line : String) : Option (Option Nat × String) :=
  match ciPre "source".data line.data with
  | some r1 =>
      let digits := r1.takeWhile Char.isDigit
      let num := if digits.isEmpty then none else some (digitsToNat digits)
      match expectChar ':' ((r1.drop digits.length).dropWhile isPySpace) with
      | some r3 =>
          let t := stripC r3
          if 2 ≤ t.length then some (num, String.mk t) else none
      | none => none
  | none => none

/-- Match of patchtag_re, ^Patch(?P<patchnum>[0-9]+)?\s*:\s*(?P<name>\S.*)$
(re.I): the name group runs to the end of the line, trailing blanks
included. -/
def patchtagMatch (line : String) : Option (Option Nat × String) :=
  match ciPre "patch".data line.data with
  | some r1 =>
      let digits := r1.takeWhile Char.isDigit
      let num := if digits.isEmpty then none else some (digitsToNat digits)
      match expectChar ':' ((r1.drop digits.length).dropWhile isPySpace) with
      | some r3 =>
          let t := r3.dropWhile isPySpace
          if t.isEmpty then none else some (num, String.mk t)
      | none => none
  | none => none

/-- Match of patchmacro_re, ^%patch(?P<patchnum>[0-9]+)?(\s+(?P<args>.*))?$
(case sensitive).  On the real newline-terminated buffer lines a bare
%patchN still matches with empty args (the \s+ eats the newline), which the
empty-rest case below reproduces. -/
def patchMacroMatch (line : String) : Option (Option Nat × String) :=
  match litPre "%patch".data line.data with
  | some r1 =>
      let digits := r1.takeWhile Char.isDigit
      let num := if digits.isEmpty then none else some (digitsToNat digits)
      match r1.drop digits.length with
      | [] => some (num, "")
      | c :: _ =>
          if isPySpace c then
            some (num, String.mk ((r1.drop digits.length).dropWhile isPySpace))
          else none
  | none => none

/-- ^\s*Name:.*$ (re.I). -/
def nameTagMatch (line : String) : Bool :=
  match ciPre "name:".data (lstripC line.data) with
  | some _ => true
  | none => false

/-- ^%setup(\s.*)?$ (case sensitive). -/
def setupMatch (line : String) : Bool :=
  match litPre "%setup".data line.data with
  | some [] => true
  | some (c :: _) => isPySpace c
  | none => false

/-- ^%prep(\s.*)?$ (case sensitive). -/
def prepMatch (line : String) : Bool :=
  match litPre "%prep".data line.data with
  | some [] => true
  | some (c :: _) => isPySpace c
  | none => false

/-- Boolean infix test on character lists. -/
def isInfixB (needle hay : List Char) : Bool :=
  hay.tails.any (fun t => needle.isPrefixOf t)

/-- Remainder of the list after the first occurrence of the pattern, none
when the pattern does not occur. -/
def dropAfterFirst (pat : List Char) : List Char → Option (List Char)
  | [] => if pat.isEmpty then some [] else none
  | c :: cs =>
      if pat.isPrefixOf (c :: cs) then some ((c :: cs).drop pat.length)
      else dropAfterFirst pat cs

/-- Match of the tag comment heuristic ^\s*#.*patch.*auto-generated (re.I,
prefix match): some 'patch' occurrence followed later by 'auto-generated'. -/
def tagCommentMatch (line : String) : Bool :=
  match lstripC line.data with
  | '#' :: rest =>
      match dropAfterFirst "patch".data (rest.map Char.toLower) with
      | some b => isInfixB "auto-generated".data b
      | none => false
  | _ => false

/-- The suffixes accepted by ^\s*#.+(patch|diff)(\.(gz|bz2|xz|lzma))?\s*$. -/
def macroCommentSuffixes : List String :=
  ["patch", "diff", "patch.gz", "patch.bz2", "patch.xz", "patch.lzma",
   "diff.gz", "diff.bz2", "diff.xz", "diff.lzma"]

/-- Match of the macro comment heuristic (re.I): a comment whose
right-stripped text ends in patch/diff with an optional compression
extension, with at least one character between the # and the suffix. -/
def macroCommentMatch (line : String) : Bool :=
  match lstripC (rstripC line.data) with
  | '#' :: rest =>
      let w := rest.map Char.toLower
      macroCommentSuffixes.any
        (fun suf => suf.data.isSuffixOf w && suf.data.length < w.length)
  | _ => false

/-- The optparse option values of the %patch macro argument parser. -/
structure MacroOpts where
  strip : Option String := none
  silence : Option String := none
  patchnum : Option String := none
  backup : Option String := none
  removeempty : Option String := none
deriving Repr, DecidableEq

def setOpt (o : MacroOpts) (c : Char) (v : String) : MacroOpts :=
  if c = 'p' then { o with strip := some v }
  else if c = 's' then { o with silence := some v }
  else if c = 'P' then { o with patchnum := some v }
  else if c = 'b' then { o with backup := some v }
  else { o with removeempty := some v }

def knownOpt (c : Char) : Bool := c ∈ (['p', 's', 'P', 'b', 'E'] : List Char)

/-- optparse parse_args over the whitespace-split macro arguments: the five
declared options all take a value (attached or as the next token), unknown
options are an error, other tokens are positional and ignored. -/
def parseMacroArgs : List String → MacroOpts → Except PyErr MacroOpts
  | [], o => .ok o
  | t :: rest, o =>
      match t.data with
      | ['-', '-'] => .ok o
      | '-' :: c :: tl =>
          if knownOpt c then
            if tl.isEmpty then
              match rest with
              | v :: rest2 => parseMacroArgs rest2 (setOpt o c v)
              | [] => .error .optParseError
            else parseMacroArgs rest (setOpt o c (String.mk tl))
          else .error .optParseError
      | _ => parseMacroArgs rest o

/-- The location dict built by parse_content.  nametag is NEVER assigned by
the source (the Name tag match stores into the setupmacro slot, line 337),
and the membership test "'setupmacro' in loc" of update_patches is a key
test on this dict and therefore always true. -/
structure SpecLoc where
  nametag : Option Int := none
  setupMarker : Option Int := none
  prepMarker : Option Int := none
deriving Repr, DecidableEq

/-- int() over the split data items of a gbpignorepatch annotation. -/
def parseIntList : List String → Except PyErr (List Int)
  | [] => .ok []
  | t :: ts =>
      match parseIntTok t with
      | some v => (parseIntList ts).map (fun l => v :: l)
      | none => .error .valueError

/-- The first pass of parse_content (lines 250-258): the last gbpignorepatch
annotation wins and its items are parsed and sorted. -/
def prePassIgnore : List String → List Int → Except PyErr (List Int)
  | [], acc => .ok acc
  | line :: rest, acc =>
      match gbptagMatch line with
      | some (tagname, data) =>
          if tagname = "ignorepatch" then do
            let l ← parseIntList (pySplitWs data)
            prePassIgnore rest (sortInt l)
          else prePassIgnore rest acc
      | none => prePassIgnore rest acc

/-- State threaded through the main line loop of parse_content. -/
structure ParseState where
  sources : List (Nat × SourceEntry)
  patches : List (Nat × PatchEntry)
  ignorepatch : List Int
  loc : SpecLoc
deriving Repr, DecidableEq

/-- One line of the main loop of parse_content (lines 274-342).  The gbp
tag branch has no continue in the source; a line of that shape cannot match
any of the later regexes, so running the branches in sequence is exact. -/
def parse_step (i : Int) (line : String) (st : ParseState) :
    Except PyErr ParseState := do
  let st : ParseState ←
    match gbptagMatch line with
    | some (tagname, data) =>
        if tagname = "ignorepatch" then do
          let l ← parseIntList (pySplitWs data)
          pure { st with ignorepatch := l }
        else pure st          -- unrecognized tag, logged only
    | none => pure st
  match sourceMatch line with
  | some (num, name) =>
      let srcnum := num.getD 0
      match alookup st.sources srcnum with
      | some e =>
          pure { st with sources := aset st.sources srcnum { e with tag_linenum := i } }
      | none =>
          pure { st with sources := aset st.sources srcnum ⟨name, name, i⟩ }
  | none =>
  match patchtagMatch line with
  | some (num, name) =>
      let patchnum := num.getD 0
      match alookup st.patches patchnum with
      | some e =>
          if st.ignorepatch.contains (patchnum : Int) then
            pure { st with patches := aset st.patches patchnum { e with tag_linenum := some i } }
          else throw .duplicatePatch
      | none =>
          pure { st with patches := aset st.patches patchnum ⟨pyStrip name, name, false, "0", none, ¬ st.ignorepatch.contains (patchnum : Int), some i⟩ }
  | none =>
  match patchMacroMatch line with
  | some (num, args) => do
      let opts ← parseMacroArgs (pySplitWs args) {}
      let patchnum : Int ←
        match num with
        | some n => pure (n : Int)
        | none =>
            match opts.patchnum with
            | some s =>
                if s ≠ "" then
                  match parseIntTok s with
                  | some v => pure v
                  | none => throw .valueError
                else pure 0
            | none => pure 0
      let st : ParseState ←
        match opts.strip with
        | some v =>
            if v ≠ "" then
              if 0 ≤ patchnum then
                match alookup st.patches patchnum.toNat with
                | some e =>
                    pure { st with patches := aset st.patches patchnum.toNat { e with strip := v } }
                | none => throw .keyError
              else throw .keyError
            else pure st
        | none => pure st
      if 0 ≤ patchnum then
        match alookup st.patches patchnum.toNat with
        | some e =>
            pure { st with patches := aset st.patches patchnum.toNat { e with macro_linenum := some i, applyFlag := true } }
        | none => throw .keyError
      else throw .keyError
  | none =>
  let st := if nameTagMatch line then { st with loc := { st.loc with setupMarker := some i } } else st
  let st := if setupMatch line then { st with loc := { st.loc with setupMarker := some i } } else st
  if prepMatch line then pure { st with loc := { st.loc with prepMarker := some i } }
  else pure st

/-- The main loop of parse_content over the numbered lines. -/
def parse_lines : List String → Int → ParseState → Except PyErr ParseState
  | [], _, st => .ok st
  | line :: rest, i, st => do
      let st2 ← parse_step i line st
      parse_lines rest (i + 1) st2

/-- SpecFile.parse_content: the ignorepatch pre-pass, the removal of all
non-ignored (autoupdate) patches from the previous state, and the main
line loop; returns the new state and the location dict. -/
def parse_content (st : SpecState) : Except PyErr (SpecState × SpecLoc) := do
  let ign ← prePassIgnore st.content []
  let patches0 := st.patches.filter (fun kv => ign.contains (kv.1 : Int))
  let ps ← parse_lines st.content 0 ⟨st.sources, patches0, ign, {}⟩
  .ok ({ st with patches := ps.patches, sources := ps.sources }, ps.loc)

/-- The SpecFile constructor as far as the claims need it: fresh maps, then
parse_content.  (The subsequent rpm-python reconciliation only replaces
declared filenames by their macro expansion, the identity on the macro free
names used here.) -/
def initSpec (lines : List String) : Except PyErr SpecState := do
  let r ← parse_content ⟨lines, [], []⟩
  .ok r.1

/-- Accumulator of the first loop of update_patches（lines 353-379): next
free index, last manual tag/macro lines, removal line lists and the patch
dict with the autoupdate entries removed. -/
structure UpdAcc where
  start : Nat
  lastTag : Int
  lastMac : Int
  rmTag : List Int
  rmMac : List Int
  patches : List (Nat × PatchEntry)
deriving Repr, DecidableEq

/-- One key of the partition loop of update_patches. -/
def updScanKey (content : List String) (acc : UpdAcc) (n : Nat) :
    Except PyErr UpdAcc := do
  match alookup acc.patches n with
  | none => .ok acc
  | some p =>
    if p.autoupdate then do
      let t ←
        match p.tag_linenum with
        | some t => pure t
        | none => throw .typeError          -- None - 1 on the comment lookup
      let prev ← pyGetIdx content (t - 1)
      let rmTag := acc.rmTag ++ [t] ++ (if tagCommentMatch prev then [t - 1] else [])
      let rmMac ←
        match p.macro_linenum with
        | some m =>
            if m ≠ 0 then do
              let prevm ← pyGetIdx content (m - 1)
              pure (acc.rmMac ++ [m] ++ (if macroCommentMatch prevm then [m - 1] else []))
            else pure acc.rmMac
        | none => pure acc.rmMac
      .ok { acc with rmTag := rmTag, rmMac := rmMac, patches := aerase acc.patches n }
    else
      .ok { acc with
        start := if acc.start ≤ n then n + 1 else acc.start,
        lastTag :=
          match p.tag_linenum with
          | some t => if acc.lastTag ≤ t then t else acc.lastTag
          | none => acc.lastTag,
        lastMac :=
          match p.macro_linenum with
          | some m => if m ≠ 0 ∧ acc.lastMac < m then m else acc.lastMac
          | none => acc.lastMac }

/-- The fresh dict entry of a newly added patch (line 388). -/
def newPatchEntry (p : String) : PatchEntry :=
  ⟨p, p, true, "1", none, true, none⟩

/-- Adding the new patches with consecutive indices (lines 386-389). -/
def addNewPatches (k : Nat) (ps : List String) (a : List (Nat × PatchEntry)) :
    List (Nat × PatchEntry) :=
  match ps with
  | [] => a
  | p :: rest => addNewPatches (k + 1) rest (aset a k (newPatchEntry p))

/-- The %patch macro insertion loop (lines 404-411), over the reversed
sorted key list. -/
def insMacroLines (patches : List (Nat × PatchEntry)) (linenum : Int) :
    List Nat → List String → List String
  | [], content => content
  | n :: rest, content =>
      match alookup patches n with
      | some p =>
          if p.autoupdate && p.applyFlag then
            let c1 := pyInsert content linenum ("%patch" ++ natRepr n ++ " -p" ++ p.strip)
            let c2 := pyInsert c1 linenum ("# " ++ p.name)
            insMacroLines patches linenum rest c2
          else insMacroLines patches linenum rest content
      | none => insMacroLines patches linenum rest content

/-- Python "%-12s" left justification of the Patch label. -/
def padTo12 (label : String) : String :=
  label ++ String.mk (List.replicate (12 - label.length) ' ')

/-- The Patch tag insertion loop (lines 431-437). -/
def insTagLines (patches : List (Nat × PatchEntry)) (linenum : Int) :
    List Nat → List String → List String
  | [], content => content
  | n :: rest, content =>
      match alookup patches n with
      | some p =>
          if p.autoupdate then
            let text := padTo12 ("Patch" ++ natRepr n ++ ":") ++ p.name
            insTagLines patches linenum rest (pyInsert content linenum text)
          else insTagLines patches linenum rest content
      | none => insTagLines patches linenum rest content

/-- list.pop of the recorded lines, called with the reversed sorted list. -/
def popLines : List Int → List String → Except PyErr (List String)
  | [], content => .ok content
  | l :: rest, content => do
      let c ← pyPop content l
      popLines rest c

/-- SpecFile.update_patches (lines 347-443): re-parse, partition into
autoupdate (removed) and manual patches, renumber the new patch list from
one past the maximal manual index, insert the new %patch macro lines and
Patch tag lines at the anchor positions and remove the recorded old lines.
The source computes the macro anchor with "elif 'setupmacro' in loc", a
dict key membership test that is always true, so its %prep fallback is
dead code and a missing setup marker is an uncontrolled TypeError
(loc['setupmacro'] + 1 with None); the tag anchor fallback reads
loc['nametag'], which parse_content never assigns, with the same effect. -/
def update_patches (st : SpecState) (patchfilenames : List String) :
    Except PyErr SpecState := do
  let pr ← parse_content st
  let st1 := pr.1
  let loc := pr.2
  let acc ← (asortedKeys st1.patches).foldlM (updScanKey st1.content)
      ⟨0, 0, 0, [], [], st1.patches⟩
  let rmTag := sortInt acc.rmTag
  let rmMac := sortInt acc.rmMac
  let patches := addNewPatches acc.start patchfilenames acc.patches
  let mlinenum : Int ←
    match rmMac.getLast? with
    | some l => pure (l + 1)
    | none =>
        if acc.lastMac ≠ 0 then pure (acc.lastMac + 1)
        else
          match loc.setupMarker with
          | some l => pure (l + 1)
          | none => throw .typeError
  let content1 := insMacroLines patches mlinenum (sortNat (akeys patches)).reverse st1.content
  let content2 ← popLines rmMac.reverse content1
  let tlinenum : Int ←
    match rmTag.getLast? with
    | some l => pure (l + 1)
    | none =>
        if acc.lastTag ≠ 0 then pure (acc.lastTag + 1)
        else if ¬ st1.sources.isEmpty then
          match (sortNat (akeys st1.sources)).getLast? with
          | some lastsource =>
              match alookup st1.sources lastsource with
              | some src => pure (src.tag_linenum + 1)
              | none => throw .keyError
          | none => throw .keyError
        else
          match loc.nametag with
          | some l => pure (l + 1)
          | none => throw .typeError
  let content3 := insTagLines patches tlinenum (sortNat (akeys patches)).reverse content2
  let content4 := pyInsert content3 tlinenum "# Patches auto-generated by git-buildpackage:"
  let content5 ← popLines rmTag.reverse content4
  .ok { content := content5, patches := patches, sources := st1.sources }

/-! ## Observation helpers and document families for the SpecFile claims -/

/-- Characters that are safe in a patch file name: ASCII letters, digits,
and . _ - / ~ + .  Such names contain no whitespace, no colon, no hash and
no percent sign, so they cannot interfere with any of the line regexes. -/
def safeChar (c : Char) : Bool :=
  (65 ≤ c.toNat && c.toNat ≤ 90) || (97 ≤ c.toNat && c.toNat ≤ 122) ||
  (48 ≤ c.toNat && c.toNat ≤ 57) || c = '.' || c = '_' || c = '-' ||
  c = '/' || c = '~' || c = '+'

/-- A well formed patch file name: non empty and made of safe characters. -/
def WfName (s : String) : Bool := ¬ s.data.isEmpty && s.data.all safeChar

/-- A well formed source archive name additionally has at least two
characters (the name group of source_re cannot match fewer). -/
def WfName2 (s : String) : Bool := WfName s && 2 ≤ s.data.length

/-- A Patch declaration tag line as a spec author writes it. -/
def mkPatchTagLine (n : Nat) (a : String) : String :=
  "Patch" ++ natRepr n ++ ": " ++ a

/-- A Source declaration tag line. -/
def mkSourceLine (n : Nat) (a : String) : String :=
  "Source" ++ natRepr n ++ ": " ++ a

/-- A gbpignorepatch annotation line for one index. -/
def mkIgnoreLine (n : Nat) : String :=
  "# gbpignorepatch: " ++ natRepr n

/-- The Patch tag line that update_patches generates (12 wide label). -/
def genTagLine (n : Nat) (p : String) : String :=
  padTo12 ("Patch" ++ natRepr n ++ ":") ++ p

/-- The %patch macro line that update_patches generates. -/
def genMacroLine (n : Nat) (strip : String) : String :=
  "%patch" ++ natRepr n ++ " -p" ++ strip

/-- The block of generated Patch tag lines for consecutive indices. -/
def tagBlockFrom : Nat → List String → List String
  | _, [] => []
  | k, p :: ps => genTagLine k p :: tagBlockFrom (k + 1) ps

/-- The block of generated comment plus %patch macro line pairs. -/
def macroBlockFrom : Nat → List String → List String
  | _, [] => []
  | k, p :: ps => ("# " ++ p) :: genMacroLine k "1" :: macroBlockFrom (k + 1) ps

/-- The patches dict entries created by parsing a generated tag block whose
first tag sits at line ti. -/
def tagParsedFrom : Nat → Int → List String → List (Nat × PatchEntry)
  | _, _, [] => []
  | k, ti, p :: ps =>
      (k, ⟨p, p, false, "0", none, true, some ti⟩) :: tagParsedFrom (k + 1) (ti + 1) ps

/-- The same entries after the matching %patch macro block (first comment
line at mi, so the first macro line is mi + 1) has been parsed. -/
def fullParsedFrom : Nat → Int → Int → List String → List (Nat × PatchEntry)
  | _, _, _, [] => []
  | k, ti, mi, p :: ps =>
      (k, ⟨p, p, true, "1", some (mi + 1), true, some ti⟩) ::
        fullParsedFrom (k + 1) (ti + 1) (mi + 2) ps

/-- The assoc entries that addNewPatches appends for fresh consecutive
keys. -/
def newBlockFrom : Nat → List String → List (Nat × PatchEntry)
  | _, [] => []
  | k, p :: ps => (k, newPatchEntry p) :: newBlockFrom (k + 1) ps

/-- The filenames of the autoupdate entries of the patches dict, in index
order. -/
def autoFilenames (st : SpecState) : List String :=
  (asortedKeys st.patches).filterMap (fun n =>
    match alookup st.patches n with
    | some p => if p.autoupdate then some p.filename else none
    | none => none)

/-- The indices holding autoupdate entries, in order. -/
def autoIndices (st : SpecState) : List Nat :=
  (asortedKeys st.patches).filter (fun n =>
    match alookup st.patches n with
    | some p => p.autoupdate
    | none => false)

/-- The representative spec document of the round trip theorem: name tag,
one source, one manually maintained (ignorepatch) patch, two previously
auto generated patches, prep section with setup and the three patch
macros. -/
def D1 : List String :=
  ["Name: pkg",
   "Source0: pkg-1.0.tar.gz",
   "# gbpignorepatch: 0",
   "Patch0: manual.patch",
   "Patch1: old-a.patch",
   "Patch2: old-b.patch",
   "%prep",
   "%setup -q",
   "%patch0 -p1",
   "%patch1 -p1",
   "%patch2 -p1",
   "%build"]

/-- The manual patch entry of D1 after the constructor parse. -/
def manualEntryD1 : PatchEntry :=
  ⟨"manual.patch", "manual.patch", true, "1", some 8, false, some 3⟩

/-- The state of the freshly constructed SpecFile over D1. -/
def stD1 : SpecState :=
  { content := D1,
    patches :=
      [(0, manualEntryD1),
       (1, ⟨"old-a.patch", "old-a.patch", true, "1", some 9, true, some 4⟩),
       (2, ⟨"old-b.patch", "old-b.patch", true, "1", some 10, true, some 5⟩)],
    sources := [(0, ⟨"pkg-1.0.tar.gz", "pkg-1.0.tar.gz", 1⟩)] }

/-- The content update_patches produces on D1 for the new patch list P:
the old autoupdate tags (lines 4-5) and macros (lines 9-10) are gone, the
banner and the new tags sit after the untouched manual tag, the new
comment/macro pairs after the untouched manual macro. -/
def D1updated (P : List String) : List String :=
  ["Name: pkg",
   "Source0: pkg-1.0.tar.gz",
   "# gbpignorepatch: 0",
   "Patch0: manual.patch",
   "# Patches auto-generated by git-buildpackage:"] ++
  tagBlockFrom 1 P ++
  ["%prep",
   "%setup -q",
   "%patch0 -p1"] ++
  macroBlockFrom 1 P ++
  ["%build"]

/-- The patches dict update_patches leaves behind on D1. -/
def patchesAfterUpdate (P : List String) : List (Nat × PatchEntry) :=
  addNewPatches 1 P [(0, manualEntryD1)]

/-- The manual patch entry after re-parsing the updated document: its tag
line is still 3, its %patch macro now sits at line 7 + |P|. -/
def manualReParsedD1 (m : Nat) : PatchEntry :=
  ⟨"manual.patch", "manual.patch", true, "1", some (7 + (m : Int)), false, some 3⟩

/-- The patches dict after re-parsing the updated document. -/
def reParsedD1 (P : List String) : List (Nat × PatchEntry) :=
  (0, manualReParsedD1 P.length) :: fullParsedFrom 1 5 (8 + (P.length : Int)) P

/-- The location dict after re-parsing the updated document. -/
def locReParsedD1 (m : Nat) : SpecLoc :=
  ⟨none, some (6 + (m : Int)), some (5 + (m : Int))⟩

/-! ## Sample data used by the concrete theorems -/

/-- A neutral author for sample commits. -/
def sampleAuthor : PatchAuthor :=
  { name := "Jane Doe", email := "jane@example.com",
    datestr := "Mon, 1 Jan 2024 00:00:00 +0000" }

/-- Commit whose body carries the generic-family ignore directive. -/
def commitGbpIgnore : CommitData :=
  { id := "c1", subject := "s1", body := "Gbp: Ignore", patchname := "a",
    author := sampleAuthor, diff := "d1\n" }

/-- Commit whose body carries the queue-specific ignore directive. -/
def commitGbpPqIgnore : CommitData :=
  { id := "c1", subject := "s1", body := "Gbp-Pq: Ignore", patchname := "a",
    author := sampleAuthor, diff := "d1\n" }

/-- A plain commit with no directives. -/
def commitPlain : CommitData :=
  { id := "c2", subject := "s2", body := "", patchname := "b",
    author := sampleAuthor, diff := "d2\n" }

/-- Commit whose subject slug is "a-2", used to seed the collision example. -/
def commitSlugA2 : CommitData :=
  { id := "c3", subject := "a-2", body := "", patchname := "a-2",
    author := sampleAuthor, diff := "d3\n" }

/-- Commit whose subject slug is "a". -/
def commitSlugA : CommitData :=
  { id := "c4", subject := "a", body := "", patchname := "a",
    author := sampleAuthor, diff := "d4\n" }

/-- A two-branch repository on master. -/
def sampleRepo : RepoFs := { branches := ["master"], current := "master" }

/-! # Theorems -/

/-! ### Character and digit rendering lemmas -/

theorem charToDigit_digitChar (d : Nat) (h : d < 10) :
    charToDigit (digitChar d) = d := by
  interval_cases d <;> rfl

theorem isDigit_digitChar (d : Nat) (h : d < 10) :
    (digitChar d).isDigit = true := by
  interval_cases d <;> rfl

theorem natDigitsAux_all_digit (fuel n : Nat) (h : n ≤ fuel ∨ n < 10) :
    ∀ c ∈ natDigitsAux fuel n, c.isDigit = true := by
  induction fuel generalizing n with
  | zero =>
      intro c hc
      have hn : n < 10 := by omega
      simp only [natDigitsAux, List.mem_singleton] at hc
      subst hc
      exact isDigit_digitChar n hn
  | succ f ih =>
      intro c hc
      unfold natDigitsAux at hc
      split at hc
      · rename_i hn
        simp only [List.mem_singleton] at hc
        subst hc
        exact isDigit_digitChar n hn
      · rename_i hn
        rw [List.mem_append] at hc
        rcases hc with hc | hc
        · exact ih (n / 10) (by omega) c hc
        · simp only [List.mem_singleton] at hc
          subst hc
          exact isDigit_digitChar (n % 10) (Nat.mod_lt n (by norm_num))

theorem natDigits_all_digit (n : Nat) :
    ∀ c ∈ natDigits n, c.isDigit = true :=
  natDigitsAux_all_digit n n (Or.inl (Nat.le_refl n))

theorem natDigitsAux_ne_nil (fuel n : Nat) : natDigitsAux fuel n ≠ [] := by
  cases fuel with
  | zero => simp [natDigitsAux]
  | succ f =>
      unfold natDigitsAux
      split
      · simp
      · simp

theorem natDigits_ne_nil (n : Nat) : natDigits n ≠ [] :=
  natDigitsAux_ne_nil n n

theorem digitsToNat_append_one (cs : List Char) (c : Char) :
    digitsToNat (cs ++ [c]) = digitsToNat cs * 10 + charToDigit c := by
  unfold digitsToNat
  rw [List.foldl_append]
  rfl

theorem digitsToNat_natDigitsAux (fuel n : Nat) (h : n ≤ fuel ∨ n < 10) :
    digitsToNat (natDigitsAux fuel n) = n := by
  induction fuel generalizing n with
  | zero =>
      have hn : n < 10 := by omega
      show digitsToNat [digitChar n] = n
      unfold digitsToNat
      simp [charToDigit_digitChar n hn]
  | succ f ih =>
      unfold natDigitsAux
      split
      · rename_i hn
        unfold digitsToNat
        simp [charToDigit_digitChar n hn]
      · rename_i hn
        rw [digitsToNat_append_one,
            ih (n / 10) (by omega),
            charToDigit_digitChar (n % 10) (Nat.mod_lt n (by norm_num))]
        omega

theorem digitsToNat_natDigits (n : Nat) : digitsToNat (natDigits n) = n :=
  digitsToNat_natDigitsAux n n (Or.inl (Nat.le_refl n))

/-- A character that some decidable character test rejects differs from
every character the test accepts; specialized below. -/
theorem isPySpace_of_isDigit (c : Char) (h : c.isDigit = true) :
    isPySpace c = false := by
  by_contra hh
  rw [Bool.not_eq_false] at hh
  unfold isPySpace at hh
  simp only [Bool.or_eq_true, decide_eq_true_eq] at hh
  have hc : c = ' ' ∨ c = '\t' ∨ c = '\n' ∨ c = '\x0d' ∨ c = '\x0b' ∨ c = '\x0c' := by
    tauto
  rcases hc with h1 | h1 | h1 | h1 | h1 | h1 <;> subst h1 <;> exact absurd h (by decide)

theorem ne_colon_of_isDigit (c : Char) (h : c.isDigit = true) : c ≠ ':' := by
  intro h1
  subst h1
  exact absurd h (by decide)

theorem ne_dash_of_isDigit (c : Char) (h : c.isDigit = true) : c ≠ '-' := by
  intro h1
  subst h1
  exact absurd h (by decide)

theorem ne_plus_of_isDigit (c : Char) (h : c.isDigit = true) : c ≠ '+' := by
  intro h1
  subst h1
  exact absurd h (by decide)

theorem isPySpace_of_safe (c : Char) (h : safeChar c = true) :
    isPySpace c = false := by
  by_contra hh
  rw [Bool.not_eq_false] at hh
  unfold isPySpace at hh
  simp only [Bool.or_eq_true, decide_eq_true_eq] at hh
  have hc : c = ' ' ∨ c = '\t' ∨ c = '\n' ∨ c = '\x0d' ∨ c = '\x0b' ∨ c = '\x0c' := by
    tauto
  rcases hc with h1 | h1 | h1 | h1 | h1 | h1 <;> subst h1 <;> exact absurd h (by decide)

theorem ne_colon_of_safe (c : Char) (h : safeChar c = true) : c ≠ ':' := by
  intro h1; subst h1; exact absurd h (by decide)

theorem ne_hash_of_safe (c : Char) (h : safeChar c = true) : c ≠ '#' := by
  intro h1; subst h1; exact absurd h (by decide)

theorem ne_percent_of_safe (c : Char) (h : safeChar c = true) : c ≠ '%' := by
  intro h1; subst h1; exact absurd h (by decide)

/-! ### List scanning helper lemmas -/

theorem takeWhile_app_all {p : Char → Bool} (l1 l2 : List Char)
    (h : ∀ c ∈ l1, p c = true) :
    (l1 ++ l2).takeWhile p = l1 ++ l2.takeWhile p := by
  induction l1 with
  | nil => simp
  | cons c cs ih =>
      have hc : p c = true := h c (by simp)
      simp only [List.cons_append, List.takeWhile_cons, hc, if_true]
      rw [ih (fun x hx => h x (by simp [hx]))]

theorem dropWhile_app_all {p : Char → Bool} (l1 l2 : List Char)
    (h : ∀ c ∈ l1, p c = true) :
    (l1 ++ l2).dropWhile p = l2.dropWhile p := by
  induction l1 with
  | nil => simp
  | cons c cs ih =>
      have hc : p c = true := h c (by simp)
      simp only [List.cons_append, List.dropWhile_cons, hc, if_true]
      exact ih (fun x hx => h x (by simp [hx]))

theorem dropWhile_cons_false {p : Char → Bool} (c : Char) (l : List Char)
    (h : p c = false) : (c :: l).dropWhile p = c :: l := by
  simp [List.dropWhile_cons, h]

theorem takeWhile_cons_false {p : Char → Bool} (c : Char) (l : List Char)
    (h : p c = false) : (c :: l).takeWhile p = [] := by
  simp [List.takeWhile_cons, h]

theorem ciPre_eq_drop (ps cs r : List Char) (h : ciPre ps cs = some r) :
    r = cs.drop ps.length := by
  induction ps generalizing cs with
  | nil => simpa [ciPre] using h.symm
  | cons p pt ih =>
      cases cs with
      | nil => simp [ciPre] at h
      | cons c ct =>
          unfold ciPre at h
          split at h
          · simpa using ih ct h
          · exact absurd h (by simp)

theorem all_safe_drop (l : List Char) (n : Nat) (h : l.all safeChar = true) :
    (l.drop n).all safeChar = true := by
  rw [List.all_eq_true] at *
  intro c hc
  exact h c (List.mem_of_mem_drop hc)

theorem all_safe_dropWhile {p : Char → Bool} (l : List Char)
    (h : l.all safeChar = true) : (l.dropWhile p).all safeChar = true := by
  rw [List.all_eq_true] at *
  intro c hc
  exact h c ((List.dropWhile_sublist p (l := l)).mem hc)



/-- C9: write_patch_file produces no output (no return value, no file) if
and only if the diff text is empty; for a non empty diff it produces the
mail style header block, the body, a literal separator line, then the diff
verbatim, and returns the filename. -/
theorem write_patch_file_empty_diff_iff (f : String) (a : PatchAuthor)
    (subj body diff : String) :
    (write_patch_file f a subj body diff = none ↔ diff = "") ∧
    (diff = "" ∨ write_patch_file f a subj body diff =
        some (f, renderPatchMail a subj body ++ "---\n" ++ diff)) := by
  unfold write_patch_file
  by_cases h : diff = "" <;> simp [h]

/-- C2 divergence: a commit whose body is "Gbp: Ignore" (the generic tag
family) is NOT skipped by generate_patches, because line 88 of
gbp/scripts/pq.py updates the command dict with itself instead of with the
parsed gbp-family commands; the same commit tagged with the queue specific
family "Gbp-Pq: Ignore" IS skipped.  With two commits, one carrying the
generic ignore, two patches are exported instead of the claimed one. -/
theorem generate_patches_gbp_ignore_divergence :
    (generate_patches [commitGbpIgnore, commitPlain] true).series =
      ["debian/patches/0001-a.patch", "debian/patches/0002-b.patch"] ∧
    (generate_patches [commitGbpPqIgnore, commitPlain] true).series =
      ["debian/patches/0001-b.patch"] ∧
    (generate_patches [commitGbpPqIgnore, commitPlain] true).written.length = 1 := by
  refine ⟨?_, ?_, ?_⟩ <;> rfl

/-- In the body model (the code behind the entry TypeError): an import run
that copies the patches aside (two candidate commits) and exhausts every
candidate fails, and the scratch directory still exists on that terminal
exit — the rmtree only runs after the retry loop and the raise propagates
past it. -/
theorem import_body_scratch_leak :
    (import_quilt_patches_body sampleRepo "master" ["k1", "k2"] [⟨"p1"⟩]
        (fun _ _ => false) false).scratchMade = true ∧
    (import_quilt_patches_body sampleRepo "master" ["k1", "k2"] [⟨"p1"⟩]
        (fun _ _ => false) false).err = some .couldntApply ∧
    (import_quilt_patches_body sampleRepo "master" ["k1", "k2"] [⟨"p1"⟩]
        (fun _ _ => false) false).scratchExists = true := by
  refine ⟨?_, ?_, ?_⟩ <;> rfl

/-- Helper: the core of the import (after the branch checks) only reports a
still existing scratch directory together with an error. -/
theorem importCore_scratch (r : RepoFs) (branch pq : String)
    (commits : List String) (queue : List QPatch)
    (applies : String → QPatch → Bool)
    (h : (import_quilt_patches_body.importCore r branch pq commits queue applies).err = none) :
    (import_quilt_patches_body.importCore r branch pq commits queue applies).scratchExists = false := by
  simp only [import_quilt_patches_body.importCore] at *
  split at h <;> simp_all

/-- In the body model, the scratch directory is removed on the successful
exit; only the failure exits leak it. -/
theorem import_body_scratch_removed_on_success (r : RepoFs) (branch : String)
    (commits : List String) (queue : List QPatch)
    (applies : String → QPatch → Bool) (force : Bool)
    (h : (import_quilt_patches_body r branch commits queue applies force).err = none) :
    (import_quilt_patches_body r branch commits queue applies force).scratchExists = false := by
  revert h
  unfold import_quilt_patches_body import_quilt_patches_body.importRest
  repeat' split
  all_goals intro h
  all_goals try exact importCore_scratch _ _ _ _ _ _ h
  all_goals try simp_all
  all_goals
    revert h
  all_goals
    split
  all_goals intro h
  all_goals first
    | exact importCore_scratch _ _ _ _ _ _ h
    | simp_all

/-- Exhausting the candidate list: every attempt fails, each one performing
one hard reset, deleting the freshly created queue branch and returning to
the base branch, and the loop ends in the couldntApply error with the branch
list as it started. -/
theorem importLoop_exhausted (pq base : String) (queue : List QPatch)
    (applies : String → QPatch → Bool) (commits : List String) (r : RepoFs)
    (resets : Nat)
    (hpq : pq ∉ r.branches)
    (hfail : ∀ c ∈ commits, queue.all (applies c) = false) :
    importLoop pq base queue applies commits r resets =
      (⟨r.branches, if commits.isEmpty then r.current else base⟩,
       resets + commits.length, none, some .couldntApply) := by
  induction commits generalizing r resets with
  | nil => simp [importLoop]
  | cons c cs ih =>
      have h1 : queue.all (applies c) = false := hfail c (by simp)
      unfold importLoop
      rw [if_neg (by simpa using hpq), h1]
      simp only [Bool.false_eq_true, if_false, List.erase_cons_head]
      rw [ih ⟨r.branches, base⟩ (resets + 1) hpq (fun x hx => hfail x (by simp [hx]))]
      simp [List.isEmpty_cons]
      omega

/-- In the body model, when no candidate commit (tried newest to oldest)
lets the whole series apply, the import body fails with the couldntApply
GbpError, no patch-queue branch remains, and one hard reset was performed
per candidate attempt. -/
theorem import_body_exhausted_no_queue_branch (r : RepoFs) (branch : String)
    (commits : List String) (queue : List QPatch)
    (applies : String → QPatch → Bool)
    (h1 : is_pq_branch branch = false)
    (h2 : ("patch-queue/" ++ branch) ∉ r.branches)
    (h3 : ∀ c ∈ commits, ∃ p ∈ queue, applies c p = false) :
    (import_quilt_patches_body r branch commits queue applies false).err =
        some .couldntApply ∧
    ("patch-queue/" ++ branch) ∉
        (import_quilt_patches_body r branch commits queue applies false).repo.branches ∧
    (import_quilt_patches_body r branch commits queue applies false).resets =
        commits.length := by
  have hfail : ∀ c ∈ commits, queue.all (applies c) = false := by
    intro c hc
    obtain ⟨p, hp, hpf⟩ := h3 c hc
    rw [← Bool.not_eq_true, List.all_eq_true]
    intro hall
    have := hall p hp
    rw [hpf] at this
    exact Bool.false_ne_true this
  unfold import_quilt_patches_body import_quilt_patches_body.importRest
    import_quilt_patches_body.importCore
  rw [if_neg (by simp [h1]), if_neg (by simpa using h2)]
  rw [importLoop_exhausted _ _ _ _ _ _ _ h2 hfail]
  exact ⟨rfl, h2, by simp⟩

/-- Instance of the body-model exhaustion fact: two candidates, one patch
that never applies. -/
theorem import_body_exhausted_no_queue_branch_inst :
    (import_quilt_patches_body sampleRepo "master" ["k1", "k2"] [⟨"p1"⟩]
        (fun _ _ => false) false).err = some .couldntApply ∧
    ("patch-queue/" ++ "master") ∉
        (import_quilt_patches_body sampleRepo "master" ["k1", "k2"] [⟨"p1"⟩]
            (fun _ _ => false) false).repo.branches ∧
    (import_quilt_patches_body sampleRepo "master" ["k1", "k2"] [⟨"p1"⟩]
        (fun _ _ => false) false).resets = (["k1", "k2"] : List String).length :=
  import_body_exhausted_no_queue_branch sampleRepo "master" ["k1", "k2"] [⟨"p1"⟩]
    (fun _ _ => false) (by decide) (by decide)
    (fun c _ => ⟨⟨"p1"⟩, by decide, rfl⟩)

/-- In the body model (the code behind the entry TypeError): export on an
empty queue-vs-base diff with an existing on-disk patch directory reports
nothing to do but leaves the patch directory REMOVED (the body rmtrees it
unconditionally before generating). -/
theorem export_body_empty_queue_removes_dir :
    (export_patches_body
        (some [("debian/patches/old.patch", "x"),
               ("debian/patches/series", "old.patch\n")])
        sampleRepo "master" [] true false).nothingToDo = true ∧
    (export_patches_body
        (some [("debian/patches/old.patch", "x"),
               ("debian/patches/series", "old.patch\n")])
        sampleRepo "master" [] true false).dir = none := ⟨rfl, rfl⟩

/-- In the body model, export with no commits beyond base writes no patch
files and no series file, reports nothing to do and changes no branches,
but the on-disk patch directory ends up removed whatever it contained
before. -/
theorem export_body_empty_queue
    (dir0 : Option (List (String × String))) (r : RepoFs) (branch : String)
    (numbered : Bool) (h : is_pq_branch branch = false) :
    (export_patches_body dir0 r branch [] numbered false).dir = none ∧
    (export_patches_body dir0 r branch [] numbered false).nothingToDo = true ∧
    (export_patches_body dir0 r branch [] numbered false).repo = r := by
  unfold export_patches_body
  simp [h, generate_patches]

/-- Instance of the body-model no-op export fact. -/
theorem export_body_empty_queue_inst :
    (export_patches_body (some [("debian/patches/old.patch", "x")]) sampleRepo
        "master" [] true false).dir = none ∧
    (export_patches_body (some [("debian/patches/old.patch", "x")]) sampleRepo
        "master" [] true false).nothingToDo = true ∧
    (export_patches_body (some [("debian/patches/old.patch", "x")]) sampleRepo
        "master" [] true false).repo = sampleRepo :=
  export_body_empty_queue _ sampleRepo "master" true (by decide)

/-- Instance of the body-model cleanup fact: a successful two-candidate
run of the import body model removes the scratch directory. -/
theorem import_body_scratch_removed_on_success_inst :
    (import_quilt_patches_body sampleRepo "master" ["k1", "k2"] [⟨"p1"⟩]
        (fun _ _ => true) false).scratchExists = false :=
  import_body_scratch_removed_on_success sampleRepo "master" ["k1", "k2"] [⟨"p1"⟩]
    (fun _ _ => true) false (by rfl)

/-- Length bound for the digit rendering worker. -/
theorem natDigitsAux_length_le (fuel n k : Nat) (hk : 1 ≤ k) (hn : n < 10 ^ k) :
    (natDigitsAux fuel n).length ≤ k := by
  induction fuel generalizing n k with
  | zero => simpa [natDigitsAux] using hk
  | succ f ih =>
      unfold natDigitsAux
      split
      · simpa using hk
      · rename_i hge
        have h10 : 10 ≤ n := Nat.le_of_not_lt hge
      -- k must be at least 2 here
        have hk2 : 2 ≤ k := by
          by_contra hlt
          push_neg at hlt
          have hk1 : k = 1 := by omega
          subst hk1
          simp [pow_one] at hn
          omega
        have hrec : n / 10 < 10 ^ (k - 1) := by
          rw [Nat.div_lt_iff_lt_mul (by norm_num)]
          calc n < 10 ^ k := hn
            _ = 10 ^ (k - 1) * 10 := by
                  rw [← pow_succ]
                  congr 1
                  omega
        have := ih (n / 10) (k - 1) (by omega) hrec
        simp only [List.length_append, List.length_cons, List.length_nil]
        omega

/-- Length bound for natDigits. -/
theorem natDigits_length_le (n k : Nat) (hk : 1 ≤ k) (hn : n < 10 ^ k) :
    (natDigits n).length ≤ k :=
  natDigitsAux_length_le n n k hk hn

/-- pad4 always renders at least 4 characters and exactly 4 below 10000. -/
theorem pad4_length (n : Nat) (h : n < 10000) : (pad4 n).length = 4 := by
  have hd : (natDigits n).length ≤ 4 := natDigits_length_le n 4 (by omega) (by norm_num; omega)
  show (List.replicate (4 - (natDigits n).length) '0' ++ natDigits n).length = 4
  rw [List.length_append, List.length_replicate]
  omega

/-- Slicing never yields more than the non negative bound. -/
theorem pySliceTo_length_le (s : String) (n : Int) (h : 0 ≤ n) :
    (pySliceTo s n).length ≤ n.toNat := by
  unfold pySliceTo
  rw [if_pos h]
  show (s.data.take n.toNat).length ≤ n.toNat
  simp [List.length_take]

/-- C8 amended: the derived filename stays within the 63 character budget
whenever the series has at most 9998 entries (so that the ordinal prefix
really is 4 digits wide as the claim describes). -/
theorem deriveFilepath_length_le (outdir patchname : String)
    (series : List String) (numbered : Bool)
    (h : series.length ≤ 9998) :
    ((deriveFilepath outdir patchname series numbered).1).length ≤ 63 := by
  unfold deriveFilepath
  set pre := pad4 (series.length + 1) ++ "-" with hpredef
  set presuffix := "-" ++ natRepr series.length with hpsdef
  have hpre : pre.length = 5 := by
    rw [hpredef, String.length_append, pad4_length _ (by omega)]
    rfl
  have hsufl : (".patch" : String).length = 6 := rfl
  have hdig : (natDigits series.length).length ≤ 4 :=
    natDigits_length_le _ 4 (by omega) (by norm_num; omega)
  have hps1 : 1 ≤ presuffix.length ∧ presuffix.length ≤ 5 := by
    rw [hpsdef, String.length_append]
    have h1 : ("-" : String).length = 1 := rfl
    have h2 : (natRepr series.length).length = (natDigits series.length).length := rfl
    rw [h1, h2]
    omega
  have hbase := pySliceTo_length_le patchname
      (63 - (pre.length : Int) - ((".patch" : String).length : Int))
      (by rw [hpre, hsufl]; norm_num)
  have hbase2 := pySliceTo_length_le
      (pySliceTo patchname (63 - (pre.length : Int) - ((".patch" : String).length : Int)))
      (63 - (pre.length : Int) - ((".patch" : String).length : Int) - (presuffix.length : Int))
      (by rw [hpre, hsufl]; omega)
  have hemp : ("" : String).length = 0 := rfl
  cases numbered <;>
    simp only [Bool.false_eq_true, if_false, if_true] <;>
    split <;>
    simp only [String.length_append] <;>
    omega

/-- C8 counterexample: with numbering disabled, the collision rename can
itself collide.  Series reachable by format_patch runs: slugs "a-2" then "a"
produce p/a-2.patch and p/a.patch; a third commit with slug "a" collides
with p/a.patch and is renamed to p/a-2.patch, which is ALREADY in the
series, so the claimed distinctness fails. -/
theorem deriveFilepath_collision_cex :
    (format_patch "p" commitSlugA2 [] false "").2 = ["p/a-2.patch"] ∧
    (format_patch "p" commitSlugA ["p/a-2.patch"] false "").2 =
      ["p/a-2.patch", "p/a.patch"] ∧
    (deriveFilepath "p/" "a" ["p/a-2.patch", "p/a.patch"] false).2 ∈
      (["p/a-2.patch", "p/a.patch"] : List String) := by
  refine ⟨rfl, rfl, ?_⟩
  decide

/-- C8 amended witness. -/
theorem deriveFilepath_length_le_witness :
    ((deriveFilepath "debian/patches/" "a" [] true).1).length ≤ 63 :=
  deriveFilepath_length_le "debian/patches/" "a" [] true (by decide)

/-! ### Matcher evaluation on constructed lines -/

theorem data_mkPatchTagLine (n : Nat) (a : String) :
    (mkPatchTagLine n a).data =
      'P' :: 'a' :: 't' :: 'c' :: 'h' :: (natDigits n ++ ':' :: (' ' :: a.data)) := by
  show ((("Patch" ++ natRepr n) ++ ": ") ++ a).data = _
  simp [String.data_append, natRepr]

theorem data_genTagLine (n : Nat) (p : String) :
    (genTagLine n p).data =
      'P' :: 'a' :: 't' :: 'c' :: 'h' ::
        (natDigits n ++ ':' ::
          (List.replicate (12 - ("Patch" ++ natRepr n ++ ":").length) ' ' ++ p.data)) := by
  show ((("Patch" ++ natRepr n ++ ":") ++
      String.mk (List.replicate (12 - ("Patch" ++ natRepr n ++ ":").length) ' ')) ++ p).data = _
  simp [String.data_append, natRepr]

theorem patchtagMatch_tagLike (n : Nat) (sp : List Char) (a : String)
    (hsp : ∀ c ∈ sp, isPySpace c = true)
    (ha1 : a.data ≠ []) (ha2 : a.data.all safeChar = true) :
    patchtagMatch (String.mk
      ('P' :: 'a' :: 't' :: 'c' :: 'h' :: (natDigits n ++ ':' :: (sp ++ a.data)))) =
      some (some n, a) := by
  unfold patchtagMatch
  have h1 : ciPre "patch".data
      ('P' :: 'a' :: 't' :: 'c' :: 'h' :: (natDigits n ++ ':' :: (sp ++ a.data))) =
      some (natDigits n ++ ':' :: (sp ++ a.data)) := by
    simp [ciPre]
  rw [show (String.mk ('P' :: 'a' :: 't' :: 'c' :: 'h' ::
      (natDigits n ++ ':' :: (sp ++ a.data)))).data =
      'P' :: 'a' :: 't' :: 'c' :: 'h' :: (natDigits n ++ ':' :: (sp ++ a.data)) from rfl]
  rw [h1]
  have h2 : (natDigits n ++ ':' :: (sp ++ a.data)).takeWhile Char.isDigit = natDigits n := by
    rw [takeWhile_app_all _ _ (natDigits_all_digit n)]
    simp [takeWhile_cons_false]
  have h3 : (natDigits n ++ ':' :: (sp ++ a.data)).drop (natDigits n).length =
      ':' :: (sp ++ a.data) := by
    rw [List.drop_left]
  simp only [h2, h3]
  have h4 : (natDigits n).isEmpty = false := by
    cases hd : natDigits n with
    | nil => exact absurd hd (natDigits_ne_nil n)
    | cons c cs => rfl
  rw [if_neg (by simp [h4])]
  have h5 : (':' :: (sp ++ a.data)).dropWhile isPySpace = ':' :: (sp ++ a.data) :=
    dropWhile_cons_false _ _ (by decide)
  rw [h5]
  have h6 : expectChar ':' (':' :: (sp ++ a.data)) = some (sp ++ a.data) := by
    simp [expectChar]
  rw [h6]
  dsimp only
  have h7 : (sp ++ a.data).dropWhile isPySpace = a.data := by
    rw [dropWhile_app_all _ _ hsp]
    cases hd : a.data with
    | nil => exact absurd hd ha1
    | cons c cs =>
        refine dropWhile_cons_false _ _ ?_
        apply isPySpace_of_safe
        have := (List.all_eq_true.mp ha2) c
        rw [hd] at this
        exact this (by simp)
  rw [h7]
  rw [if_neg (by cases hd : a.data with
      | nil => exact absurd hd ha1
      | cons c cs => simp [hd])]
  rw [digitsToNat_natDigits]

theorem gbptagMatch_of_head (line : String) (c : Char) (l : List Char)
    (hd : line.data = c :: l) (hs : isPySpace c = false) (hc : c ≠ '#') :
    gbptagMatch line = none := by
  unfold gbptagMatch
  rw [hd, show lstripC (c :: l) = c :: l from dropWhile_cons_false c l hs]
  simp [expectChar, hc]

theorem sourceMatch_of_head (line : String) (c : Char) (l : List Char)
    (hd : line.data = c :: l) (hc : c.toLower ≠ 's') :
    sourceMatch line = none := by
  unfold sourceMatch
  rw [hd]
  simp [ciPre, hc]

theorem patchtagMatch_of_head (line : String) (c : Char) (l : List Char)
    (hd : line.data = c :: l) (hc : c.toLower ≠ 'p') :
    patchtagMatch line = none := by
  unfold patchtagMatch
  rw [hd]
  simp [ciPre, hc]

theorem patchMacroMatch_of_head (line : String) (c : Char) (l : List Char)
    (hd : line.data = c :: l) (hc : c ≠ '%') :
    patchMacroMatch line = none := by
  unfold patchMacroMatch
  rw [hd]
  simp [litPre, hc]

theorem nameTagMatch_of_head (line : String) (c : Char) (l : List Char)
    (hd : line.data = c :: l) (hs : isPySpace c = false) (hc : c.toLower ≠ 'n') :
    nameTagMatch line = false := by
  unfold nameTagMatch
  rw [hd, show lstripC (c :: l) = c :: l from dropWhile_cons_false c l hs]
  simp [ciPre, hc]

theorem setupMatch_of_head (line : String) (c : Char) (l : List Char)
    (hd : line.data = c :: l) (hc : c ≠ '%') :
    setupMatch line = false := by
  unfold setupMatch
  rw [hd]
  simp [litPre, hc]

theorem prepMatch_of_head (line : String) (c : Char) (l : List Char)
    (hd : line.data = c :: l) (hc : c ≠ '%') :
    prepMatch line = false := by
  unfold prepMatch
  rw [hd]
  simp [litPre, hc]

theorem setupMatch_of_second (line : String) (c : Char) (l : List Char)
    (hd : line.data = '%' :: c :: l) (hc : c ≠ 's') :
    setupMatch line = false := by
  unfold setupMatch
  rw [hd]
  simp [litPre, hc]

theorem prepMatch_of_second (line : String) (c : Char) (l : List Char)
    (hd : line.data = '%' :: c :: l) (hc : c ≠ 'p') :
    prepMatch line = false := by
  unfold prepMatch
  rw [hd]
  simp [litPre, hc]

theorem setupMatch_of_third (line : String) (c : Char) (l : List Char)
    (hd : line.data = '%' :: 's' :: c :: l) (hc : c ≠ 'e') :
    setupMatch line = false := by
  unfold setupMatch
  rw [hd]
  simp [litPre, hc]

theorem prepMatch_of_third (line : String) (c : Char) (l : List Char)
    (hd : line.data = '%' :: 'p' :: c :: l) (hc : c ≠ 'r') :
    prepMatch line = false := by
  unfold prepMatch
  rw [hd]
  simp [litPre, hc]

theorem rstripC_of_safe (l : List Char) (h : l.all safeChar = true) :
    rstripC l = l := by
  unfold rstripC
  cases hr : l.reverse with
  | nil =>
      have : l = [] := by simpa using congrArg List.reverse hr
      simp [this]
  | cons c cs =>
      have hc : safeChar c = true := by
        have hmem : c ∈ l := by
          have : c ∈ l.reverse := by rw [hr]; simp
          simpa using this
        exact (List.all_eq_true.mp h) c hmem
      rw [dropWhile_cons_false c cs (isPySpace_of_safe c hc)]
      rw [← hr, List.reverse_reverse]

theorem dropWhile_space_safe (l : List Char) (h : l.all safeChar = true) :
    l.dropWhile isPySpace = l := by
  cases hd : l with
  | nil => simp
  | cons c cs =>
      refine dropWhile_cons_false c cs ?_
      apply isPySpace_of_safe
      refine (List.all_eq_true.mp h) c ?_
      rw [hd]; simp

theorem pyStrip_of_safe (a : String) (h : a.data.all safeChar = true) :
    pyStrip a = a := by
  unfold pyStrip stripC lstripC
  rw [dropWhile_space_safe a.data h, rstripC_of_safe a.data h]

/-- A comment line "# s" over a safe string never matches the gbp tag
regex: the data part would need a colon, which safe strings lack. -/
theorem gbptagMatch_hash_safe (a : String) (h : a.data.all safeChar = true) :
    gbptagMatch ("# " ++ a) = none := by
  unfold gbptagMatch
  have hd : ("# " ++ a).data = '#' :: ' ' :: a.data := by
    simp [String.data_append]
  rw [hd, show lstripC ('#' :: ' ' :: a.data) = '#' :: ' ' :: a.data from
    dropWhile_cons_false _ _ (by decide)]
  rw [show expectChar '#' ('#' :: ' ' :: a.data) = some (' ' :: a.data) by simp [expectChar]]
  dsimp only
  rw [show (' ' :: a.data).dropWhile isPySpace = a.data.dropWhile isPySpace by
    simp [List.dropWhile_cons, isPySpace]]
  rw [dropWhile_space_safe a.data h]
  cases hp : ciPre "gbp".data a.data with
  | none => simp
  | some r =>
      have hr : r = a.data.drop 3 := by
        simpa using ciPre_eq_drop _ _ _ hp
      have hrs : r.all safeChar = true := by
        rw [hr]; exact all_safe_drop _ _ h
      dsimp only
      split
      · rfl
      · have hrest : ((r.drop (r.takeWhile (fun c => c.isAlpha)).length).dropWhile
            isPySpace) = r.drop (r.takeWhile (fun c => c.isAlpha)).length := by
          apply dropWhile_space_safe
          exact all_safe_drop _ _ hrs
        rw [hrest]
        cases hdd : r.drop (r.takeWhile (fun c => c.isAlpha)).length with
        | nil => simp [expectChar]
        | cons c cs =>
            have hc : safeChar c = true := by
              have hmem : c ∈ r.drop (r.takeWhile (fun c => c.isAlpha)).length := by
                rw [hdd]; simp
              exact (List.all_eq_true.mp hrs) c (List.mem_of_mem_drop hmem)
            simp [expectChar, ne_colon_of_safe c hc]

/-- The gbpignorepatch annotation line parses to its tag and the rendered
index. -/
theorem gbptagMatch_ignoreLine (n : Nat) :
    gbptagMatch (mkIgnoreLine n) = some ("ignorepatch", natRepr n) := by
  unfold gbptagMatch mkIgnoreLine
  have hd : ("# gbpignorepatch: " ++ natRepr n).data =
      '#' :: ' ' :: 'g' :: 'b' :: 'p' :: 'i' :: 'g' :: 'n' :: 'o' :: 'r' :: 'e' ::
        'p' :: 'a' :: 't' :: 'c' :: 'h' :: ':' :: ' ' :: natDigits n := by
    simp [String.data_append, natRepr]
  rw [hd]
  rw [show lstripC ('#' :: ' ' :: 'g' :: 'b' :: 'p' :: 'i' :: 'g' :: 'n' :: 'o' :: 'r' ::
      'e' :: 'p' :: 'a' :: 't' :: 'c' :: 'h' :: ':' :: ' ' :: natDigits n) =
      '#' :: ' ' :: 'g' :: 'b' :: 'p' :: 'i' :: 'g' :: 'n' :: 'o' :: 'r' :: 'e' ::
        'p' :: 'a' :: 't' :: 'c' :: 'h' :: ':' :: ' ' :: natDigits n from
    dropWhile_cons_false _ _ (by decide)]
  rw [show expectChar '#' ('#' :: ' ' :: 'g' :: 'b' :: 'p' :: 'i' :: 'g' :: 'n' :: 'o' ::
      'r' :: 'e' :: 'p' :: 'a' :: 't' :: 'c' :: 'h' :: ':' :: ' ' :: natDigits n) =
      some (' ' :: 'g' :: 'b' :: 'p' :: 'i' :: 'g' :: 'n' :: 'o' :: 'r' :: 'e' ::
        'p' :: 'a' :: 't' :: 'c' :: 'h' :: ':' :: ' ' :: natDigits n) by simp [expectChar]]
  dsimp only
  rw [show (' ' :: 'g' :: 'b' :: 'p' :: 'i' :: 'g' :: 'n' :: 'o' :: 'r' :: 'e' ::
      'p' :: 'a' :: 't' :: 'c' :: 'h' :: ':' :: ' ' :: natDigits n).dropWhile isPySpace =
      'g' :: 'b' :: 'p' :: 'i' :: 'g' :: 'n' :: 'o' :: 'r' :: 'e' ::
        'p' :: 'a' :: 't' :: 'c' :: 'h' :: ':' :: ' ' :: natDigits n by
    simp [List.dropWhile_cons, isPySpace]]
  rw [show ciPre "gbp".data ('g' :: 'b' :: 'p' :: 'i' :: 'g' :: 'n' :: 'o' :: 'r' :: 'e' ::
      'p' :: 'a' :: 't' :: 'c' :: 'h' :: ':' :: ' ' :: natDigits n) =
      some ('i' :: 'g' :: 'n' :: 'o' :: 'r' :: 'e' :: 'p' :: 'a' :: 't' :: 'c' :: 'h' ::
        ':' :: ' ' :: natDigits n) by simp [ciPre]]
  dsimp only
  rw [show ('i' :: 'g' :: 'n' :: 'o' :: 'r' :: 'e' :: 'p' :: 'a' :: 't' :: 'c' :: 'h' ::
      ':' :: ' ' :: natDigits n).takeWhile (fun c => c.isAlpha) =
      ['i', 'g', 'n', 'o', 'r', 'e', 'p', 'a', 't', 'c', 'h'] by
    simp [List.takeWhile_cons]]
  rw [if_neg (by simp)]
  rw [show ('i' :: 'g' :: 'n' :: 'o' :: 'r' :: 'e' :: 'p' :: 'a' :: 't' :: 'c' :: 'h' ::
      ':' :: ' ' :: natDigits n).drop
        (['i', 'g', 'n', 'o', 'r', 'e', 'p', 'a', 't', 'c', 'h'] : List Char).length =
      ':' :: ' ' :: natDigits n by simp]
  rw [show (':' :: ' ' :: natDigits n).dropWhile isPySpace = ':' :: ' ' :: natDigits n from
    dropWhile_cons_false _ _ (by decide)]
  rw [show expectChar ':' (':' :: ' ' :: natDigits n) = some (' ' :: natDigits n) by
    simp [expectChar]]
  dsimp only
  have hdrop : (' ' :: natDigits n).dropWhile isPySpace = natDigits n := by
    rw [show (' ' :: natDigits n).dropWhile isPySpace = (natDigits n).dropWhile isPySpace by
      simp [List.dropWhile_cons, isPySpace]]
    cases hd2 : natDigits n with
    | nil => exact absurd hd2 (natDigits_ne_nil n)
    | cons c cs =>
        refine dropWhile_cons_false c cs ?_
        apply isPySpace_of_isDigit
        have : c ∈ natDigits n := by rw [hd2]; simp
        exact natDigits_all_digit n c this
  rw [hdrop]
  rw [if_neg (by cases hd2 : natDigits n with
      | nil => exact absurd hd2 (natDigits_ne_nil n)
      | cons c cs => simp [hd2])]
  rfl

theorem data_mkSourceLine (n : Nat) (a : String) :
    (mkSourceLine n a).data =
      'S' :: 'o' :: 'u' :: 'r' :: 'c' :: 'e' :: (natDigits n ++ ':' :: (' ' :: a.data)) := by
  show ((("Source" ++ natRepr n) ++ ": ") ++ a).data = _
  simp [String.data_append, natRepr]

theorem sourceMatch_srcLike (n : Nat) (a : String)
    (ha1 : a.data ≠ []) (ha2 : a.data.all safeChar = true) (hlen : 2 ≤ a.data.length) :
    sourceMatch (mkSourceLine n a) = some (some n, a) := by
  unfold sourceMatch
  rw [data_mkSourceLine]
  rw [show ciPre "source".data
      ('S' :: 'o' :: 'u' :: 'r' :: 'c' :: 'e' :: (natDigits n ++ ':' :: (' ' :: a.data))) =
      some (natDigits n ++ ':' :: (' ' :: a.data)) by simp [ciPre]]
  dsimp only
  rw [show (natDigits n ++ ':' :: (' ' :: a.data)).takeWhile Char.isDigit = natDigits n by
    rw [takeWhile_app_all _ _ (natDigits_all_digit n)]
    simp [takeWhile_cons_false]]
  rw [show (natDigits n ++ ':' :: (' ' :: a.data)).drop (natDigits n).length =
      ':' :: (' ' :: a.data) from List.drop_left _ _]
  rw [show (':' :: (' ' :: a.data)).dropWhile isPySpace = ':' :: (' ' :: a.data) from
    dropWhile_cons_false _ _ (by decide)]
  rw [show expectChar ':' (':' :: (' ' :: a.data)) = some (' ' :: a.data) by simp [expectChar]]
  dsimp only
  rw [show stripC (' ' :: a.data) = a.data by
    unfold stripC lstripC
    rw [show (' ' :: a.data).dropWhile isPySpace = a.data.dropWhile isPySpace by
      simp [List.dropWhile_cons, isPySpace]]
    rw [dropWhile_space_safe a.data ha2, rstripC_of_safe a.data ha2]]
  rw [if_pos hlen]
  rw [if_neg (by cases hd : natDigits n with
      | nil => exact absurd hd (natDigits_ne_nil n)
      | cons c cs => simp [hd])]
  rw [digitsToNat_natDigits]

theorem data_genMacroLine (k : Nat) (s : String) :
    (genMacroLine k s).data =
      '%' :: 'p' :: 'a' :: 't' :: 'c' :: 'h' ::
        (natDigits k ++ ' ' :: '-' :: 'p' :: s.data) := by
  show ((("%patch" ++ natRepr k) ++ " -p") ++ s).data = _
  simp [String.data_append, natRepr]

theorem patchMacroMatch_gen (k : Nat) :
    patchMacroMatch (genMacroLine k "1") = some (some k, "-p1") := by
  unfold patchMacroMatch
  rw [data_genMacroLine]
  rw [show litPre "%patch".data
      ('%' :: 'p' :: 'a' :: 't' :: 'c' :: 'h' ::
        (natDigits k ++ ' ' :: '-' :: 'p' :: ("1" : String).data)) =
      some (natDigits k ++ ' ' :: '-' :: 'p' :: ("1" : String).data) by simp [litPre]]
  dsimp only
  rw [show (natDigits k ++ ' ' :: '-' :: 'p' :: ("1" : String).data).takeWhile Char.isDigit =
      natDigits k by
    rw [takeWhile_app_all _ _ (natDigits_all_digit k)]
    simp [takeWhile_cons_false, isPySpace]]
  rw [show (natDigits k ++ ' ' :: '-' :: 'p' :: ("1" : String).data).drop
      (natDigits k).length = ' ' :: '-' :: 'p' :: ("1" : String).data from List.drop_left _ _]
  rw [if_neg (by cases hd : natDigits k with
      | nil => exact absurd hd (natDigits_ne_nil k)
      | cons c cs => simp [hd])]
  dsimp only
  rw [if_pos (by decide)]
  rw [show (' ' :: '-' :: 'p' :: ("1" : String).data).dropWhile isPySpace =
      '-' :: 'p' :: ("1" : String).data by simp [List.dropWhile_cons, isPySpace]]
  rw [digitsToNat_natDigits]

theorem parseIntTok_natRepr (n : Nat) : parseIntTok (natRepr n) = some (n : Int) := by
  unfold parseIntTok
  have hd : (natRepr n).data = natDigits n := rfl
  rw [hd]
  cases hd2 : natDigits n with
  | nil => exact absurd hd2 (natDigits_ne_nil n)
  | cons c cs =>
      have hdig : ∀ x ∈ c :: cs, x.isDigit = true := by
        rw [← hd2]; exact natDigits_all_digit n
      have hc : c.isDigit = true := hdig c (by simp)
      dsimp only
      rw [if_neg (ne_dash_of_isDigit c hc), if_neg (ne_plus_of_isDigit c hc)]
      rw [if_pos (by rw [List.all_eq_true]; exact hdig)]
      rw [← hd2, digitsToNat_natDigits]

theorem splitOnP_no_match {p : Char → Bool} (l : List Char)
    (h : ∀ c ∈ l, p c = false) : l.splitOnP p = [l] := by
  induction l with
  | nil => simp [List.splitOnP_nil]
  | cons c cs ih =>
      rw [List.splitOnP_cons, if_neg (by simp [h c (by simp)])]
      rw [ih (fun x hx => h x (by simp [hx]))]
      rfl

theorem pySplitWs_natRepr (n : Nat) : pySplitWs (natRepr n) = [natRepr n] := by
  unfold pySplitWs
  have hd : (natRepr n).data = natDigits n := rfl
  rw [hd]
  rw [splitOnP_no_match _ (fun c hc => isPySpace_of_isDigit c (natDigits_all_digit n c hc))]
  have : (natDigits n).isEmpty = false := by
    cases hd2 : natDigits n with
    | nil => exact absurd hd2 (natDigits_ne_nil n)
    | cons c cs => rfl
  simp [List.filterMap, this]
  rfl

/-! ### parse_step evaluation lemmas -/

theorem parse_step_markersOnly (i : Int) (line : String) (st : ParseState)
    (h1 : gbptagMatch line = none) (h2 : sourceMatch line = none)
    (h3 : patchtagMatch line = none) (h4 : patchMacroMatch line = none) :
    parse_step i line st = .ok (
      let st1 := if nameTagMatch line then
        { st with loc := { st.loc with setupMarker := some i } } else st
      let st2 := if setupMatch line then
        { st1 with loc := { st1.loc with setupMarker := some i } } else st1
      if prepMatch line then
        { st2 with loc := { st2.loc with prepMarker := some i } } else st2) := by
  unfold parse_step
  rw [h1, h2, h3, h4]
  cases hn : nameTagMatch line <;> cases hs : setupMatch line <;>
    cases hp : prepMatch line <;> simp [pure, Except.pure, Bind.bind, Except.bind]

theorem parse_step_noop (i : Int) (line : String) (st : ParseState)
    (h1 : gbptagMatch line = none) (h2 : sourceMatch line = none)
    (h3 : patchtagMatch line = none) (h4 : patchMacroMatch line = none)
    (h5 : nameTagMatch line = false) (h6 : setupMatch line = false)
    (h7 : prepMatch line = false) :
    parse_step i line st = .ok st := by
  rw [parse_step_markersOnly i line st h1 h2 h3 h4, h5, h6, h7]
  simp

theorem data_mkIgnoreLine (n : Nat) :
    (mkIgnoreLine n).data =
      '#' :: ' ' :: 'g' :: 'b' :: 'p' :: 'i' :: 'g' :: 'n' :: 'o' :: 'r' :: 'e' ::
        'p' :: 'a' :: 't' :: 'c' :: 'h' :: ':' :: ' ' :: natDigits n := by
  show ("# gbpignorepatch: " ++ natRepr n).data = _
  simp [String.data_append, natRepr]

theorem parse_step_ignoreLine (i : Int) (n : Nat) (st : ParseState) :
    parse_step i (mkIgnoreLine n) st = .ok { st with ignorepatch := [(n : Int)] } := by
  unfold parse_step
  rw [gbptagMatch_ignoreLine n,
      sourceMatch_of_head _ _ _ (data_mkIgnoreLine n) (by decide),
      patchtagMatch_of_head _ _ _ (data_mkIgnoreLine n) (by decide),
      patchMacroMatch_of_head _ _ _ (data_mkIgnoreLine n) (by decide),
      nameTagMatch_of_head _ _ _ (data_mkIgnoreLine n) (by decide) (by decide),
      setupMatch_of_head _ _ _ (data_mkIgnoreLine n) (by decide),
      prepMatch_of_head _ _ _ (data_mkIgnoreLine n) (by decide)]
  simp only [pySplitWs_natRepr]
  rw [show parseIntList [natRepr n] = .ok [(n : Int)] by
    unfold parseIntList
    rw [parseIntTok_natRepr n]
    rfl]
  simp [pure, Except.pure, Bind.bind, Except.bind]

theorem patchtagMatch_of_data (line : String) (n : Nat) (sp : List Char) (a : String)
    (hline : line.data =
      'P' :: 'a' :: 't' :: 'c' :: 'h' :: (natDigits n ++ ':' :: (sp ++ a.data)))
    (hsp : ∀ c ∈ sp, isPySpace c = true)
    (ha1 : a.data ≠ []) (ha2 : a.data.all safeChar = true) :
    patchtagMatch line = some (some n, a) := by
  have h : line = String.mk
      ('P' :: 'a' :: 't' :: 'c' :: 'h' :: (natDigits n ++ ':' :: (sp ++ a.data))) := by
    cases line
    exact congrArg String.mk hline
  rw [h]
  exact patchtagMatch_tagLike n sp a hsp ha1 ha2

theorem parse_step_tag_new (i : Int) (n : Nat) (sp : List Char) (a : String)
    (line : String) (st : ParseState)
    (hline : line.data =
      'P' :: 'a' :: 't' :: 'c' :: 'h' :: (natDigits n ++ ':' :: (sp ++ a.data)))
    (hsp : ∀ c ∈ sp, isPySpace c = true)
    (ha1 : a.data ≠ []) (ha2 : a.data.all safeChar = true)
    (halu : alookup st.patches n = none) :
    parse_step i line st = .ok { st with patches := aset st.patches n ⟨a, a, false, "0", none, ¬ st.ignorepatch.contains (n : Int), some i⟩ } := by
  unfold parse_step
  rw [gbptagMatch_of_head _ _ _ hline (by decide) (by decide),
      sourceMatch_of_head _ _ _ hline (by decide),
      patchtagMatch_of_data line n sp a hline hsp ha1 ha2]
  dsimp only
  simp only [pure_bind, Option.getD_some]
  rw [halu]
  dsimp only
  rw [pyStrip_of_safe a ha2]
  simp [pure, Except.pure]

theorem parse_step_tag_dup (i : Int) (n : Nat) (sp : List Char) (a : String)
    (line : String) (st : ParseState) (e : PatchEntry)
    (hline : line.data =
      'P' :: 'a' :: 't' :: 'c' :: 'h' :: (natDigits n ++ ':' :: (sp ++ a.data)))
    (hsp : ∀ c ∈ sp, isPySpace c = true)
    (ha1 : a.data ≠ []) (ha2 : a.data.all safeChar = true)
    (halu : alookup st.patches n = some e)
    (hig : st.ignorepatch.contains (n : Int) = false) :
    parse_step i line st = .error .duplicatePatch := by
  unfold parse_step
  rw [gbptagMatch_of_head _ _ _ hline (by decide) (by decide),
      sourceMatch_of_head _ _ _ hline (by decide),
      patchtagMatch_of_data line n sp a hline hsp ha1 ha2]
  dsimp only
  simp only [pure_bind, Option.getD_some]
  rw [halu]
  dsimp only
  rw [hig]
  simp [throw, throwThe, MonadExceptOf.throw]

theorem parse_step_tag_dupIgnored (i : Int) (n : Nat) (sp : List Char) (a : String)
    (line : String) (st : ParseState) (e : PatchEntry)
    (hline : line.data =
      'P' :: 'a' :: 't' :: 'c' :: 'h' :: (natDigits n ++ ':' :: (sp ++ a.data)))
    (hsp : ∀ c ∈ sp, isPySpace c = true)
    (ha1 : a.data ≠ []) (ha2 : a.data.all safeChar = true)
    (halu : alookup st.patches n = some e)
    (hig : st.ignorepatch.contains (n : Int) = true) :
    parse_step i line st = .ok { st with patches := aset st.patches n { e with tag_linenum := some i } } := by
  unfold parse_step
  rw [gbptagMatch_of_head _ _ _ hline (by decide) (by decide),
      sourceMatch_of_head _ _ _ hline (by decide),
      patchtagMatch_of_data line n sp a hline hsp ha1 ha2]
  dsimp only
  simp only [pure_bind, Option.getD_some]
  rw [halu]
  dsimp only
  rw [hig]
  simp [pure, Except.pure]

/-! ### Association list and sorting lemmas -/

theorem alookup_cons {A : Type} (j : Nat) (e : A) (t : List (Nat × A)) (k : Nat) :
    alookup ((j, e) :: t) k = if j = k then some e else alookup t k := by
  unfold alookup
  by_cases h : j = k <;> simp [List.find?_cons, h]

theorem alookup_nil {A : Type} (k : Nat) : alookup ([] : List (Nat × A)) k = none := rfl

theorem amem_cons {A : Type} (j : Nat) (e : A) (t : List (Nat × A)) (k : Nat) :
    amem ((j, e) :: t) k = (j = k || amem t k) := by
  unfold amem
  simp [List.any_cons]

theorem alookup_eq_none_of_amem_false {A : Type} (l : List (Nat × A)) (k : Nat)
    (h : amem l k = false) : alookup l k = none := by
  induction l with
  | nil => rfl
  | cons kv t ih =>
      obtain ⟨j, e⟩ := kv
      rw [amem_cons] at h
      rw [alookup_cons]
      simp only [Bool.or_eq_false_iff] at h
      rw [if_neg (by simpa using h.1)]
      exact ih h.2

theorem amem_true_of_alookup {A : Type} (l : List (Nat × A)) (k : Nat) (e : A)
    (h : alookup l k = some e) : amem l k = true := by
  by_contra hh
  rw [Bool.not_eq_true] at hh
  rw [alookup_eq_none_of_amem_false l k hh] at h
  exact absurd h (by simp)

theorem aset_fresh {A : Type} (l : List (Nat × A)) (k : Nat) (v : A)
    (h : amem l k = false) : aset l k v = l ++ [(k, v)] := by
  unfold aset
  rw [h]
  simp

theorem alookup_aset_self {A : Type} (l : List (Nat × A)) (k : Nat) (v : A) :
    alookup (aset l k v) k = some v := by
  unfold aset
  by_cases h : amem l k = true
  · rw [if_pos h]
    induction l with
    | nil => simp [amem] at h
    | cons kv t ih =>
        obtain ⟨j, e⟩ := kv
        by_cases hj : j = k
        · subst hj
          simp [alookup_cons]
        · rw [amem_cons] at h
          simp only [Bool.or_eq_true, decide_eq_true_eq] at h
          rcases h with h | h
          · exact absurd h hj
          · simp only [List.map_cons, if_neg hj]
            rw [alookup_cons, if_neg hj]
            exact ih h
  · rw [if_neg h]
    rw [Bool.not_eq_true] at h
    induction l with
    | nil => simp [alookup_cons]
    | cons kv t ih =>
        obtain ⟨j, e⟩ := kv
        rw [amem_cons] at h
        simp only [Bool.or_eq_false_iff] at h
        rw [List.cons_append, alookup_cons, if_neg (by simpa using h.1)]
        exact ih h.2

theorem alookup_map_set {A : Type} (l : List (Nat × A)) (k k2 : Nat) (v : A)
    (h : k2 ≠ k) :
    alookup (l.map (fun kv => if kv.1 = k then (k, v) else kv)) k2 = alookup l k2 := by
  induction l with
  | nil => rfl
  | cons kv t ih =>
      obtain ⟨j, e⟩ := kv
      by_cases hj : j = k
      · subst hj
        simp only [List.map_cons, if_pos rfl]
        rw [alookup_cons, alookup_cons, if_neg (fun hh => h hh.symm), if_neg (fun hh => h hh.symm)]
        exact ih
      · simp only [List.map_cons, if_neg hj]
        rw [alookup_cons, alookup_cons]
        by_cases hjk : j = k2 <;> simp [hjk, ih]

theorem alookup_append_single {A : Type} (l : List (Nat × A)) (k k2 : Nat) (v : A)
    (h : k2 ≠ k) : alookup (l ++ [(k, v)]) k2 = alookup l k2 := by
  induction l with
  | nil =>
      show alookup [(k, v)] k2 = none
      rw [alookup_cons, if_neg (fun hh => h hh.symm)]
      rfl
  | cons kv t ih =>
      obtain ⟨j, e⟩ := kv
      rw [List.cons_append, alookup_cons, alookup_cons]
      by_cases hjk : j = k2 <;> simp [hjk, ih]

theorem alookup_aset_ne {A : Type} (l : List (Nat × A)) (k k2 : Nat) (v : A)
    (h : k2 ≠ k) : alookup (aset l k v) k2 = alookup l k2 := by
  unfold aset
  by_cases hm : amem l k = true
  · rw [if_pos hm]
    exact alookup_map_set l k k2 v h
  · rw [if_neg hm]
    exact alookup_append_single l k k2 v h

theorem aset_aset {A : Type} (l : List (Nat × A)) (k : Nat) (v w : A) :
    aset (aset l k v) k w = aset l k w := by
  unfold aset
  by_cases hm : amem l k = true
  · have hm2 : amem (l.map (fun kv => if kv.1 = k then (k, v) else kv)) k = true := by
      unfold amem at *
      rw [List.any_eq_true] at *
      obtain ⟨kv, hkv, hk⟩ := hm
      refine ⟨if kv.1 = k then (k, v) else kv, List.mem_map_of_mem _ hkv, ?_⟩
      simp only [decide_eq_true_eq] at hk
      simp [hk]
    rw [if_pos hm, if_pos hm2, List.map_map, if_pos hm]
    congr 1
    funext kv
    by_cases hk : kv.1 = k <;> simp [hk]
  · have hm2 : amem (l ++ [(k, v)]) k = true := by
      unfold amem
      rw [List.any_eq_true]
      exact ⟨(k, v), by simp, by simp⟩
    rw [if_neg hm, if_pos hm2, List.map_append]
    have hmap : l.map (fun kv => if kv.1 = k then (k, w) else kv) = l := by
      have hfalse : ∀ kv ∈ l, kv.1 ≠ k := by
        intro kv hkv hk
        rw [Bool.not_eq_true] at hm
        unfold amem at hm
        rw [← Bool.not_eq_true, List.any_eq_true] at hm
        exact hm ⟨kv, hkv, by simp [hk]⟩
      calc l.map (fun kv => if kv.1 = k then (k, w) else kv) = l.map id := by
            apply List.map_congr_left
            intro kv hkv
            simp [hfalse kv hkv]
        _ = l := List.map_id l
    rw [hmap, if_neg hm]
    simp

/-! ### newBlockFrom / addNewPatches structure -/

theorem amem_append {A : Type} (a b : List (Nat × A)) (k : Nat) :
    amem (a ++ b) k = (amem a k || amem b k) := by
  unfold amem
  simp [List.any_append]

theorem addNewPatches_eq_append (ps : List String) (k : Nat)
    (a : List (Nat × PatchEntry)) (h : ∀ j, amem a j = true → j < k) :
    addNewPatches k ps a = a ++ newBlockFrom k ps := by
  induction ps generalizing k a with
  | nil => simp [addNewPatches, newBlockFrom]
  | cons p pt ih =>
      unfold addNewPatches newBlockFrom
      have hfresh : amem a k = false := by
        by_contra hh
        rw [Bool.not_eq_false] at hh
        exact absurd (h k hh) (by omega)
      rw [aset_fresh a k _ hfresh]
      rw [ih (k + 1) (a ++ [(k, newPatchEntry p)]) ?hbound]
      · simp
      case hbound =>
        intro j hj
        rw [amem_append] at hj
        rcases Bool.or_eq_true _ _ |>.mp hj with hj | hj
        · have := h j hj
          omega
        · unfold amem at hj
          simp only [List.any_eq_true, List.mem_singleton] at hj
          obtain ⟨kv, hkv, hk⟩ := hj
          subst hkv
          simp only [decide_eq_true_eq] at hk
          omega

theorem akeys_newBlockFrom (ps : List String) (k : Nat) :
    akeys (newBlockFrom k ps) = List.range' k ps.length := by
  induction ps generalizing k with
  | nil => rfl
  | cons p pt ih =>
      show k :: akeys (newBlockFrom (k + 1) pt) = List.range' k (pt.length + 1)
      rw [ih (k + 1)]
      rfl

theorem alookup_newBlockFrom_lt (ps : List String) (k j : Nat) (e : PatchEntry)
    (h : alookup (newBlockFrom k ps) j = some e) : k ≤ j := by
  induction ps generalizing k with
  | nil => exact absurd h (by simp [newBlockFrom, alookup_nil])
  | cons p pt ih =>
      unfold newBlockFrom at h
      rw [alookup_cons] at h
      split at h
      · omega
      · have := ih (k + 1) h
        omega

theorem alookup_newBlockFrom_head (ps : List String) (p : String) (k : Nat) :
    alookup (newBlockFrom k (p :: ps)) k = some (newPatchEntry p) := by
  unfold newBlockFrom
  rw [alookup_cons, if_pos rfl]

theorem alookup_newBlockFrom_tail (ps : List String) (p : String) (k j : Nat)
    (e : PatchEntry) (h : alookup (newBlockFrom (k + 1) ps) j = some e) :
    alookup (newBlockFrom k (p :: ps)) j = some e := by
  unfold newBlockFrom
  rw [alookup_cons]
  have := alookup_newBlockFrom_lt ps (k + 1) j e h
  rw [if_neg (by omega)]
  exact h

/-! ### Sorting the key lists -/

theorem insSorted_le_head (x : Nat) (l : List Nat)
    (h : ∀ y ∈ l, x ≤ y) : insSorted x l = x :: l := by
  cases l with
  | nil => rfl
  | cons y ys =>
      unfold insSorted
      rw [if_pos (h y (by simp))]

theorem sortNat_sorted (l : List Nat) (h : l.Pairwise (· ≤ ·)) :
    sortNat l = l := by
  induction l with
  | nil => rfl
  | cons x xs ih =>
      rw [List.pairwise_cons] at h
      show insSorted x (sortNat xs) = x :: xs
      rw [ih h.2]
      exact insSorted_le_head x xs h.1

theorem sortedKeys_patchesAfterUpdate (P : List String) :
    asortedKeys (patchesAfterUpdate P) = 0 :: List.range' 1 P.length := by
  unfold asortedKeys patchesAfterUpdate
  rw [addNewPatches_eq_append P 1 [(0, manualEntryD1)] (by
    intro j hj
    unfold amem at hj
    simp only [List.any_eq_true, List.mem_singleton] at hj
    obtain ⟨kv, hkv, hk⟩ := hj
    subst hkv
    simp only [decide_eq_true_eq] at hk
    omega)]
  unfold akeys
  rw [List.map_append]
  show sortNat (0 :: akeys (newBlockFrom 1 P)) = _
  rw [akeys_newBlockFrom]
  apply sortNat_sorted
  rw [List.pairwise_cons]
  constructor
  · intro y hy
    omega
  · have := List.pairwise_lt_range' 1 P.length
    exact this.imp (fun hab => Nat.le_of_lt hab)

/-! ### Line buffer insertion and removal lemmas -/

theorem pyInsert_append (pre X : List String) (x : String) :
    pyInsert (pre ++ X) (pre.length : Int) x = pre ++ x :: X := by
  unfold pyInsert
  rw [if_neg (by omega)]
  show List.take ((pre.length : Int)).toNat (pre ++ X) ++
      x :: List.drop ((pre.length : Int)).toNat (pre ++ X) = pre ++ x :: X
  have h1 : ((pre.length : Int)).toNat = pre.length := rfl
  rw [h1, List.take_left, List.drop_left]

theorem pyPop_append_left (pre X : List String) (i : Nat) (h : i < pre.length) :
    pyPop (pre ++ X) (i : Int) = .ok ((pre.take i ++ pre.drop (i + 1)) ++ X) := by
  unfold pyPop
  rw [if_neg (by omega)]
  rw [dif_pos (by constructor <;> [omega; (simp [List.length_append]; omega)])]
  have h1 : ((i : Int)).toNat = i := rfl
  rw [h1]
  rw [List.take_append_of_le_length (by omega),
      List.drop_append_of_le_length (by omega)]
  simp

theorem insMacroLines_append (pat : List (Nat × PatchEntry)) (L : Int)
    (l1 l2 : List Nat) (c : List String) :
    insMacroLines pat L (l1 ++ l2) c = insMacroLines pat L l2 (insMacroLines pat L l1 c) := by
  induction l1 generalizing c with
  | nil => rfl
  | cons n t ih =>
      have heq : ∀ (rest : List Nat) (c2 : List String),
          insMacroLines pat L (n :: rest) c2 =
            match alookup pat n with
            | some p =>
                if p.autoupdate && p.applyFlag then
                  insMacroLines pat L rest
                    (pyInsert (pyInsert c2 L ("%patch" ++ natRepr n ++ " -p" ++ p.strip))
                      L ("# " ++ p.name))
                else insMacroLines pat L rest c2
            | none => insMacroLines pat L rest c2 := fun rest c2 => rfl
      rw [List.cons_append, heq, heq]
      cases hal : alookup pat n with
      | none => exact ih c
      | some p =>
          dsimp only
          by_cases hp : (p.autoupdate && p.applyFlag) = true
          · simp only [hp, if_true]
            exact ih _
          · simp only [hp, Bool.false_eq_true, if_false]
            exact ih c

theorem insTagLines_append (pat : List (Nat × PatchEntry)) (L : Int)
    (l1 l2 : List Nat) (c : List String) :
    insTagLines pat L (l1 ++ l2) c = insTagLines pat L l2 (insTagLines pat L l1 c) := by
  induction l1 generalizing c with
  | nil => rfl
  | cons n t ih =>
      have heq : ∀ (rest : List Nat) (c2 : List String),
          insTagLines pat L (n :: rest) c2 =
            match alookup pat n with
            | some p =>
                if p.autoupdate then
                  insTagLines pat L rest
                    (pyInsert c2 L (padTo12 ("Patch" ++ natRepr n ++ ":") ++ p.name))
                else insTagLines pat L rest c2
            | none => insTagLines pat L rest c2 := fun rest c2 => rfl
      rw [List.cons_append, heq, heq]
      cases hal : alookup pat n with
      | none => exact ih c
      | some p =>
          dsimp only
          by_cases hp : p.autoupdate = true
          · simp only [hp, if_true]
            exact ih _
          · simp only [hp, Bool.false_eq_true, if_false]
            exact ih c

/-- Inserting the comment plus macro pairs for the new patch block, walking
the keys from the highest down, builds the macro block at the fixed anchor
position. -/
theorem insMacro_block (P : List String) (k : Nat) (pat : List (Nat × PatchEntry))
    (pre suf : List String)
    (hpat : ∀ j e, alookup (newBlockFrom k P) j = some e → alookup pat j = some e) :
    insMacroLines pat (pre.length : Int) (List.range' k P.length).reverse (pre ++ suf) =
      pre ++ macroBlockFrom k P ++ suf := by
  induction P generalizing k suf with
  | nil => simp [insMacroLines, macroBlockFrom]
  | cons p pt ih =>
      have hrange : List.range' k (pt.length + 1) = k :: List.range' (k + 1) pt.length := rfl
      show insMacroLines pat (pre.length : Int)
          (List.range' k (pt.length + 1)).reverse (pre ++ suf) = _
      rw [hrange, List.reverse_cons, insMacroLines_append]
      rw [ih (k + 1) suf (fun j e hj => hpat j e (alookup_newBlockFrom_tail pt p k j e hj))]
      unfold insMacroLines
      rw [hpat k (newPatchEntry p) (alookup_newBlockFrom_head pt p k)]
      dsimp only
      rw [if_pos (show ((newPatchEntry p).autoupdate && (newPatchEntry p).applyFlag) = true
        from rfl)]
      rw [show pre ++ macroBlockFrom (k + 1) pt ++ suf =
        pre ++ (macroBlockFrom (k + 1) pt ++ suf) from by simp]
      rw [pyInsert_append pre (macroBlockFrom (k + 1) pt ++ suf)
        ("%patch" ++ natRepr k ++ " -p" ++ (newPatchEntry p).strip)]
      rw [show pre ++ ("%patch" ++ natRepr k ++ " -p" ++ (newPatchEntry p).strip) ::
        (macroBlockFrom (k + 1) pt ++ suf) =
        pre ++ (("%patch" ++ natRepr k ++ " -p" ++ (newPatchEntry p).strip) ::
          macroBlockFrom (k + 1) pt ++ suf) from by simp]
      rw [pyInsert_append pre _ ("# " ++ (newPatchEntry p).name)]
      unfold insMacroLines
      simp [macroBlockFrom, genMacroLine, newPatchEntry]

/-- Inserting the new Patch tag block, highest key first, builds the tag
block at the fixed anchor position. -/
theorem insTag_block (P : List String) (k : Nat) (pat : List (Nat × PatchEntry))
    (pre suf : List String)
    (hpat : ∀ j e, alookup (newBlockFrom k P) j = some e → alookup pat j = some e) :
    insTagLines pat (pre.length : Int) (List.range' k P.length).reverse (pre ++ suf) =
      pre ++ tagBlockFrom k P ++ suf := by
  induction P generalizing k suf with
  | nil => simp [insTagLines, tagBlockFrom]
  | cons p pt ih =>
      have hrange : List.range' k (pt.length + 1) = k :: List.range' (k + 1) pt.length := rfl
      show insTagLines pat (pre.length : Int)
          (List.range' k (pt.length + 1)).reverse (pre ++ suf) = _
      rw [hrange, List.reverse_cons, insTagLines_append]
      rw [ih (k + 1) suf (fun j e hj => hpat j e (alookup_newBlockFrom_tail pt p k j e hj))]
      unfold insTagLines
      rw [hpat k (newPatchEntry p) (alookup_newBlockFrom_head pt p k)]
      dsimp only
      rw [if_pos (show (newPatchEntry p).autoupdate = true from rfl)]
      rw [show pre ++ tagBlockFrom (k + 1) pt ++ suf =
        pre ++ (tagBlockFrom (k + 1) pt ++ suf) from by simp]
      rw [pyInsert_append pre (tagBlockFrom (k + 1) pt ++ suf) _]
      unfold insTagLines
      simp [tagBlockFrom, genTagLine, newPatchEntry, padTo12]

/-- Keys below the new block are left untouched by the two insertion loops
exactly when their entries opt out; the only low key in the round trip
document is the manual patch 0, whose autoupdate flag is false. -/
theorem insMacroLines_manual (pat : List (Nat × PatchEntry)) (L : Int) (c : List String)
    (e : PatchEntry) (h0 : alookup pat 0 = some e) (ha : e.autoupdate = false) :
    insMacroLines pat L [0] c = c := by
  unfold insMacroLines
  rw [h0]
  simp [ha, insMacroLines]

theorem insTagLines_manual (pat : List (Nat × PatchEntry)) (L : Int) (c : List String)
    (e : PatchEntry) (h0 : alookup pat 0 = some e) (ha : e.autoupdate = false) :
    insTagLines pat L [0] c = c := by
  unfold insTagLines
  rw [h0]
  simp [ha, insTagLines]

/-! ### Loop composition lemmas for the parser -/

theorem bindOk {α β : Type} (a : α) (f : α → Except PyErr β) :
    (Except.ok a >>= f) = f a := rfl

theorem prePass_cons_none (line : String) (rest : List String) (acc : List Int)
    (h : gbptagMatch line = none) :
    prePassIgnore (line :: rest) acc = prePassIgnore rest acc := by
  conv_lhs => rw [prePassIgnore]
  rw [h]

theorem prePass_append (l1 l2 : List String) (acc : List Int)
    (hnone : ∀ line ∈ l1, gbptagMatch line = none) :
    prePassIgnore (l1 ++ l2) acc = prePassIgnore l2 acc := by
  induction l1 generalizing acc with
  | nil => rfl
  | cons line t ih =>
      rw [List.cons_append, prePass_cons_none _ _ _ (hnone line (by simp))]
      exact ih acc (fun x hx => hnone x (by simp [hx]))

theorem parse_lines_cons (line : String) (rest : List String) (i : Int)
    (st st2 : ParseState) (h : parse_step i line st = .ok st2) :
    parse_lines (line :: rest) i st = parse_lines rest (i + 1) st2 := by
  conv_lhs => rw [parse_lines]
  rw [h, bindOk]

theorem parse_lines_append (l1 l2 : List String) (i : Int) (st : ParseState) :
    parse_lines (l1 ++ l2) i st =
      (parse_lines l1 i st).bind (fun s => parse_lines l2 (i + l1.length) s) := by
  induction l1 generalizing i st with
  | nil => simp [parse_lines, Except.bind]
  | cons line t ih =>
      rw [List.cons_append]
      cases hstep : parse_step i line st with
      | error e =>
          have hl : parse_lines (line :: (t ++ l2)) i st = .error e := by
            conv_lhs => rw [parse_lines]
            rw [hstep]
            rfl
          have hr : parse_lines (line :: t) i st = .error e := by
            conv_lhs => rw [parse_lines]
            rw [hstep]
            rfl
          rw [hl, hr]
          rfl
      | ok st2 =>
          rw [parse_lines_cons line (t ++ l2) i st st2 hstep,
              parse_lines_cons line t i st st2 hstep]
          rw [ih (i + 1) st2]
          have hidx : i + 1 + (t.length : Int) = i + ((line :: t).length : Int) := by
            simp only [List.length_cons]
            omega
          rw [hidx]

/-! ### The update_patches round trip on the representative document -/

theorem pyPop_append_left2 (pre X : List String) (i : Int) (h0 : 0 ≤ i)
    (h : i < (pre.length : Int)) :
    pyPop (pre ++ X) i = .ok ((pre.take i.toNat ++ pre.drop (i.toNat + 1)) ++ X) := by
  unfold pyPop
  rw [if_neg (by omega)]
  rw [dif_pos (by constructor <;> [omega; (simp [List.length_append]; omega)])]
  rw [List.take_append_of_le_length (by omega),
      List.drop_append_of_le_length (by omega)]
  simp

theorem patchesAfterUpdate_eq (P : List String) :
    patchesAfterUpdate P = [(0, manualEntryD1)] ++ newBlockFrom 1 P := by
  unfold patchesAfterUpdate
  apply addNewPatches_eq_append
  intro j hj
  unfold amem at hj
  simp only [List.any_eq_true, List.mem_singleton] at hj
  obtain ⟨kv, hkv, hk⟩ := hj
  subst hkv
  simp only [decide_eq_true_eq] at hk
  omega

theorem alookup_patchesAfterUpdate_new (P : List String) (j : Nat) (e : PatchEntry)
    (hj : alookup (newBlockFrom 1 P) j = some e) :
    alookup (patchesAfterUpdate P) j = some e := by
  rw [patchesAfterUpdate_eq, List.singleton_append, alookup_cons]
  have := alookup_newBlockFrom_lt P 1 j e hj
  rw [if_neg (by omega)]
  exact hj

theorem alookup_patchesAfterUpdate_manual (P : List String) :
    alookup (patchesAfterUpdate P) 0 = some manualEntryD1 := by
  rw [patchesAfterUpdate_eq, List.singleton_append, alookup_cons, if_pos rfl]

theorem bindPure {α β : Type} (a : α) (f : α → Except PyErr β) :
    ((pure a : Except PyErr α) >>= f) = f a := rfl

theorem popLines_cons (l : Int) (rest : List Int) (c c2 : List String)
    (h : pyPop c l = .ok c2) : popLines (l :: rest) c = popLines rest c2 := by
  conv_lhs => rw [popLines]
  rw [h, bindOk]

theorem update_patches_D1 (P : List String) :
    update_patches stD1 P = .ok ⟨D1updated P, patchesAfterUpdate P, stD1.sources⟩ := by
  have hlook := alookup_patchesAfterUpdate_new P
  have hman := alookup_patchesAfterUpdate_manual P
  unfold update_patches
  rw [show parse_content stD1 =
      .ok (stD1, (⟨none, some 7, some 6⟩ : SpecLoc)) from rfl, bindOk]
  dsimp only
  rw [show (asortedKeys stD1.patches).foldlM (updScanKey stD1.content)
      (⟨0, 0, 0, [], [], stD1.patches⟩ : UpdAcc) =
      .ok (⟨1, 3, 8, [4, 5], [9, 10], [(0, manualEntryD1)]⟩ : UpdAcc) from rfl, bindOk]
  dsimp only
  rw [show sortInt [(9 : Int), 10] = [(9 : Int), 10] from rfl,
      show sortInt [(4 : Int), 5] = [(4 : Int), 5] from rfl]
  rw [show ([(9 : Int), 10]).getLast? = some (10 : Int) from rfl,
      show ([(4 : Int), 5]).getLast? = some (5 : Int) from rfl]
  dsimp only
  rw [show addNewPatches 1 P [(0, manualEntryD1)] = patchesAfterUpdate P from rfl]
  rw [bindPure]
  rw [show sortNat (akeys (patchesAfterUpdate P)) = asortedKeys (patchesAfterUpdate P) from rfl,
      sortedKeys_patchesAfterUpdate P, List.reverse_cons 0 (List.range' 1 P.length)]
  rw [show stD1.content = D1.take 11 ++ ["%build"] from rfl]
  rw [show ((10 : Int) + 1) = (((D1.take 11).length : Nat) : Int) from by decide]
  rw [insMacroLines_append]
  rw [insMacro_block P 1 (patchesAfterUpdate P) (D1.take 11) ["%build"] hlook]
  rw [insMacroLines_manual (patchesAfterUpdate P) _ _ manualEntryD1 hman rfl]
  rw [List.append_assoc (D1.take 11) (macroBlockFrom 1 P)]
  rw [show ([(9 : Int), 10]).reverse = [(10 : Int), 9] from rfl]
  have hpop1 : pyPop (D1.take 11 ++ (macroBlockFrom 1 P ++ ["%build"])) 10 =
      .ok (D1.take 10 ++ (macroBlockFrom 1 P ++ ["%build"])) :=
    pyPop_append_left2 (D1.take 11) (macroBlockFrom 1 P ++ ["%build"]) 10
      (by decide) (by decide)
  rw [popLines_cons 10 [9] _ _ hpop1]
  have hpop2 : pyPop (D1.take 10 ++ (macroBlockFrom 1 P ++ ["%build"])) 9 =
      .ok (D1.take 9 ++ (macroBlockFrom 1 P ++ ["%build"])) :=
    pyPop_append_left2 (D1.take 10) (macroBlockFrom 1 P ++ ["%build"]) 9
      (by decide) (by decide)
  rw [popLines_cons 9 [] _ _ hpop2]
  rw [show popLines ([] : List Int) (D1.take 9 ++ (macroBlockFrom 1 P ++ ["%build"])) =
      .ok (D1.take 9 ++ (macroBlockFrom 1 P ++ ["%build"])) from rfl, bindOk]
  rw [bindPure]
  rw [show D1.take 9 = D1.take 6 ++ ["%prep", "%setup -q", "%patch0 -p1"] from rfl,
      List.append_assoc (D1.take 6) ["%prep", "%setup -q", "%patch0 -p1"]]
  rw [show ((5 : Int) + 1) = (((D1.take 6).length : Nat) : Int) from by decide]
  rw [insTagLines_append]
  rw [insTag_block P 1 (patchesAfterUpdate P) (D1.take 6)
      (["%prep", "%setup -q", "%patch0 -p1"] ++ (macroBlockFrom 1 P ++ ["%build"])) hlook]
  rw [insTagLines_manual (patchesAfterUpdate P) _ _ manualEntryD1 hman rfl]
  rw [List.append_assoc (D1.take 6) (tagBlockFrom 1 P)]
  rw [pyInsert_append (D1.take 6)
      (tagBlockFrom 1 P ++
        (["%prep", "%setup -q", "%patch0 -p1"] ++ (macroBlockFrom 1 P ++ ["%build"])))]
  rw [show ([(4 : Int), 5]).reverse = [(5 : Int), 4] from rfl]
  have hpop3 : pyPop (D1.take 6 ++
      "# Patches auto-generated by git-buildpackage:" ::
        (tagBlockFrom 1 P ++
          (["%prep", "%setup -q", "%patch0 -p1"] ++ (macroBlockFrom 1 P ++ ["%build"])))) 5 =
      .ok (D1.take 5 ++
      "# Patches auto-generated by git-buildpackage:" ::
        (tagBlockFrom 1 P ++
          (["%prep", "%setup -q", "%patch0 -p1"] ++ (macroBlockFrom 1 P ++ ["%build"])))) :=
    pyPop_append_left2 (D1.take 6) _ 5 (by decide) (by decide)
  rw [popLines_cons 5 [4] _ _ hpop3]
  have hpop4 : pyPop (D1.take 5 ++
      "# Patches auto-generated by git-buildpackage:" ::
        (tagBlockFrom 1 P ++
          (["%prep", "%setup -q", "%patch0 -p1"] ++ (macroBlockFrom 1 P ++ ["%build"])))) 4 =
      .ok (D1.take 4 ++
      "# Patches auto-generated by git-buildpackage:" ::
        (tagBlockFrom 1 P ++
          (["%prep", "%setup -q", "%patch0 -p1"] ++ (macroBlockFrom 1 P ++ ["%build"])))) :=
    pyPop_append_left2 (D1.take 5) _ 4 (by decide) (by decide)
  rw [popLines_cons 4 [] _ _ hpop4]
  rw [show popLines ([] : List Int) (D1.take 4 ++
      "# Patches auto-generated by git-buildpackage:" ::
        (tagBlockFrom 1 P ++
          (["%prep", "%setup -q", "%patch0 -p1"] ++ (macroBlockFrom 1 P ++ ["%build"])))) =
      .ok (D1.take 4 ++
      "# Patches auto-generated by git-buildpackage:" ::
        (tagBlockFrom 1 P ++
          (["%prep", "%setup -q", "%patch0 -p1"] ++ (macroBlockFrom 1 P ++ ["%build"])))) from
      rfl, bindOk]
  rw [show D1.take 4 = ["Name: pkg", "Source0: pkg-1.0.tar.gz", "# gbpignorepatch: 0",
      "Patch0: manual.patch"] from rfl]
  simp [D1updated]

/-! ### Re-parsing the updated document: matcher and list facts -/

theorem safe_of_WfName (p : String) (h : WfName p = true) :
    p.data.all safeChar = true := by
  unfold WfName at h
  exact (Bool.and_eq_true _ _ |>.mp h).2

theorem ne_nil_of_WfName (p : String) (h : WfName p = true) : p.data ≠ [] := by
  unfold WfName at h
  have h1 := (Bool.and_eq_true _ _ |>.mp h).1
  intro hc
  rw [hc] at h1
  simp at h1

theorem data_hash (p : String) : ("# " ++ p).data = '#' :: (' ' :: p.data) := by
  simp [String.data_append]

theorem gbptagMatch_genTagLine (k : Nat) (p : String) :
    gbptagMatch (genTagLine k p) = none :=
  gbptagMatch_of_head _ _ _ (data_genTagLine k p) (by decide) (by decide)

theorem gbptagMatch_genMacroLine (k : Nat) :
    gbptagMatch (genMacroLine k "1") = none :=
  gbptagMatch_of_head _ _ _ (data_genMacroLine k "1") (by decide) (by decide)

theorem prePass_tagBlock (ps : List String) (k : Nat) (rest : List String)
    (acc : List Int) :
    prePassIgnore (tagBlockFrom k ps ++ rest) acc = prePassIgnore rest acc := by
  induction ps generalizing k with
  | nil => rfl
  | cons p pt ih =>
      show prePassIgnore (genTagLine k p :: (tagBlockFrom (k + 1) pt ++ rest)) acc = _
      rw [prePass_cons_none _ _ _ (gbptagMatch_genTagLine k p), ih (k + 1)]

theorem prePass_macroBlock (ps : List String) (k : Nat) (rest : List String)
    (acc : List Int) (hP : ∀ p ∈ ps, WfName p = true) :
    prePassIgnore (macroBlockFrom k ps ++ rest) acc = prePassIgnore rest acc := by
  induction ps generalizing k with
  | nil => rfl
  | cons p pt ih =>
      show prePassIgnore
        (("# " ++ p) :: genMacroLine k "1" :: (macroBlockFrom (k + 1) pt ++ rest)) acc = _
      rw [prePass_cons_none _ _ _
            (gbptagMatch_hash_safe p (safe_of_WfName p (hP p (by simp)))),
          prePass_cons_none _ _ _ (gbptagMatch_genMacroLine k),
          ih (k + 1) (fun x hx => hP x (by simp [hx]))]

theorem amem_tagParsedFrom (ps : List String) (k : Nat) (ti : Int) (j : Nat)
    (h : j < k) : amem (tagParsedFrom k ti ps) j = false := by
  induction ps generalizing k ti with
  | nil => rfl
  | cons p pt ih =>
      show amem ((k, _) :: tagParsedFrom (k + 1) (ti + 1) pt) j = false
      rw [amem_cons]
      rw [ih (k + 1) (ti + 1) (by omega)]
      simp
      omega

theorem alookup_append_skip {A : Type} (l1 l2 : List (Nat × A)) (k : Nat)
    (h : amem l1 k = false) : alookup (l1 ++ l2) k = alookup l2 k := by
  induction l1 with
  | nil => rfl
  | cons kv t ih =>
      obtain ⟨j, e⟩ := kv
      rw [amem_cons] at h
      simp only [Bool.or_eq_false_iff] at h
      rw [List.cons_append, alookup_cons, if_neg (by simpa using h.1)]
      exact ih h.2

theorem map_set_not_mem {A : Type} (l : List (Nat × A)) (k : Nat) (v : A)
    (h : amem l k = false) :
    l.map (fun kv => if kv.1 = k then (k, v) else kv) = l := by
  induction l with
  | nil => rfl
  | cons kv t ih =>
      obtain ⟨j, e⟩ := kv
      rw [amem_cons] at h
      simp only [Bool.or_eq_false_iff] at h
      simp only [List.map_cons, if_neg (show j ≠ k by simpa using h.1)]
      rw [ih h.2]

theorem aset_append_skip {A : Type} (l1 l2 : List (Nat × A)) (k : Nat) (v : A)
    (h1 : amem l1 k = false) (h2 : amem l2 k = true) :
    aset (l1 ++ l2) k v = l1 ++ aset l2 k v := by
  unfold aset
  rw [amem_append, h1, h2]
  rw [if_pos (by simp), if_pos rfl]
  rw [List.map_append, map_set_not_mem l1 k v h1]

theorem aset_cons_head {A : Type} (k : Nat) (e v : A) (t : List (Nat × A))
    (h : amem t k = false) :
    aset ((k, e) :: t) k v = (k, v) :: t := by
  unfold aset
  rw [amem_cons]
  rw [if_pos (by simp)]
  simp only [List.map_cons]
  rw [map_set_not_mem t k v h]
  simp

/-! ### Re-parsing the updated document: parse_step facts per line kind -/

theorem parse_step_prep (i : Int) (st : ParseState) :
    parse_step i "%prep" st =
      .ok { st with loc := { st.loc with prepMarker := some i } } := by
  rw [parse_step_markersOnly i "%prep" st rfl rfl rfl rfl]
  rw [show nameTagMatch "%prep" = false from rfl,
      show setupMatch "%prep" = false from rfl,
      show prepMatch "%prep" = true from rfl]
  simp

theorem parse_step_setup (i : Int) (st : ParseState) :
    parse_step i "%setup -q" st =
      .ok { st with loc := { st.loc with setupMarker := some i } } := by
  rw [parse_step_markersOnly i "%setup -q" st rfl rfl rfl rfl]
  rw [show nameTagMatch "%setup -q" = false from rfl,
      show setupMatch "%setup -q" = true from rfl,
      show prepMatch "%setup -q" = false from rfl]
  simp

theorem parse_step_comment_safe (i : Int) (p : String) (st : ParseState)
    (h : p.data.all safeChar = true) : parse_step i ("# " ++ p) st = .ok st :=
  parse_step_noop i _ st (gbptagMatch_hash_safe p h)
    (sourceMatch_of_head _ _ _ (data_hash p) (by decide))
    (patchtagMatch_of_head _ _ _ (data_hash p) (by decide))
    (patchMacroMatch_of_head _ _ _ (data_hash p) (by decide))
    (nameTagMatch_of_head _ _ _ (data_hash p) (by decide) (by decide))
    (setupMatch_of_head _ _ _ (data_hash p) (by decide))
    (prepMatch_of_head _ _ _ (data_hash p) (by decide))

theorem parse_step_macro_gen (i : Int) (k : Nat) (st : ParseState) (e : PatchEntry)
    (h0 : alookup st.patches k = some e) :
    parse_step i (genMacroLine k "1") st =
      .ok { st with patches := aset st.patches k ({ e with strip := "1", macro_linenum := some i, applyFlag := true }) } := by
  unfold parse_step
  rw [gbptagMatch_genMacroLine k,
      sourceMatch_of_head _ _ _ (data_genMacroLine k "1") (by decide),
      patchtagMatch_of_head _ _ _ (data_genMacroLine k "1") (by decide),
      patchMacroMatch_gen k]
  dsimp only
  simp only [pure_bind]
  rw [show parseMacroArgs (pySplitWs "-p1") {} =
      .ok (⟨some "1", none, none, none, none⟩ : MacroOpts) from rfl, bindOk]
  dsimp only
  have hk0 : (0 : Int) ≤ ((k : Nat) : Int) := by omega
  have htn : (((k : Nat) : Int)).toNat = k := by omega
  rw [if_pos (by decide)]
  rw [if_pos hk0, htn, h0]
  dsimp only
  rw [alookup_aset_self]
  dsimp only
  rw [aset_aset]
  simp [pure, Except.pure]

theorem parse_step_tagGen (i : Int) (k : Nat) (p : String) (st : ParseState)
    (hp : WfName p = true) (hk : 1 ≤ k)
    (hmem : amem st.patches k = false)
    (hig : st.ignorepatch = [(0 : Int)]) :
    parse_step i (genTagLine k p) st =
      .ok { st with patches :=
        st.patches ++ [(k, (⟨p, p, false, "0", none, true, some i⟩ : PatchEntry))] } := by
  rw [parse_step_tag_new i k (List.replicate (12 - ("Patch" ++ natRepr k ++ ":").length) ' ')
      p (genTagLine k p) st (data_genTagLine k p)
      (fun c hc => by rw [List.eq_of_mem_replicate hc]; decide)
      (ne_nil_of_WfName p hp) (safe_of_WfName p hp)
      (alookup_eq_none_of_amem_false _ _ hmem)]
  rw [aset_fresh _ _ _ hmem]
  have hcont : st.ignorepatch.contains ((k : Nat) : Int) = false := by
    rw [hig]
    simp
    omega
  rw [hcont]
  simp

/-! ### Re-parsing the updated document: block traversal lemmas -/

theorem parse_lines_tagBlock (ps : List String) (k : Nat) (ti : Int)
    (rest : List String) (st : ParseState)
    (hP : ∀ p ∈ ps, WfName p = true)
    (hfresh : ∀ j, amem st.patches j = true → j < k)
    (hig : st.ignorepatch = [(0 : Int)])
    (hk : 1 ≤ k) :
    parse_lines (tagBlockFrom k ps ++ rest) ti st =
      parse_lines rest (ti + ps.length)
        { st with patches := st.patches ++ tagParsedFrom k ti ps } := by
  induction ps generalizing k ti st with
  | nil => simp [tagBlockFrom, tagParsedFrom]
  | cons p pt ih =>
      have hmemk : amem st.patches k = false := by
        cases hm : amem st.patches k
        · rfl
        · exact absurd (hfresh k hm) (by omega)
      show parse_lines (genTagLine k p :: (tagBlockFrom (k + 1) pt ++ rest)) ti st = _
      rw [parse_lines_cons _ _ _ _ _
        (parse_step_tagGen ti k p st (hP p (by simp)) hk hmemk hig)]
      rw [ih (k + 1) (ti + 1) ({ st with patches := st.patches ++ [(k, (⟨p, p, false, "0", none, true, some ti⟩ : PatchEntry))] }) (fun x hx => hP x (by simp [hx]))
        (by
          intro j hj
          have hj2 : amem (st.patches ++
              [(k, (⟨p, p, false, "0", none, true, some ti⟩ : PatchEntry))]) j = true := hj
          rw [amem_append] at hj2
          rcases Bool.or_eq_true _ _ |>.mp hj2 with h | h
          · exact Nat.lt_succ_of_lt (hfresh j h)
          · rw [amem_cons,
                show amem ([] : List (Nat × PatchEntry)) j = false from rfl] at h
            simp at h
            omega)
        hig (by omega)]
      rw [show ti + 1 + ((pt.length : Nat) : Int) = ti + (((p :: pt).length : Nat) : Int) from by
        simp only [List.length_cons]
        omega]
      simp [tagParsedFrom, List.append_assoc]

theorem parse_lines_macroBlock (ps : List String) (k : Nat) (ti mi : Int)
    (rest : List String) (pre : List (Nat × PatchEntry)) (st : ParseState)
    (hP : ∀ p ∈ ps, WfName p = true)
    (hpre : ∀ j, amem pre j = true → j < k)
    (hst : st.patches = pre ++ tagParsedFrom k ti ps) :
    parse_lines (macroBlockFrom k ps ++ rest) mi st =
      parse_lines rest (mi + 2 * ps.length)
        { st with patches := pre ++ fullParsedFrom k ti mi ps } := by
  induction ps generalizing k ti mi pre st with
  | nil =>
      rw [show mi + 2 * ((([] : List String).length : Nat) : Int) = mi from by simp]
      have hp0 : pre ++ fullParsedFrom k ti mi [] = st.patches := by
        rw [hst]
        rfl
      rw [hp0]
      rfl
  | cons p pt ih =>
      have hmemk : amem pre k = false := by
        cases hm : amem pre k
        · rfl
        · exact absurd (hpre k hm) (by omega)
      show parse_lines (("# " ++ p) :: genMacroLine k "1" ::
        (macroBlockFrom (k + 1) pt ++ rest)) mi st = _
      rw [parse_lines_cons _ _ _ _ _
        (parse_step_comment_safe mi p st (safe_of_WfName p (hP p (by simp))))]
      have hlook : alookup st.patches k =
          some (⟨p, p, false, "0", none, true, some ti⟩ : PatchEntry) := by
        rw [hst]
        rw [show tagParsedFrom k ti (p :: pt) =
            (k, (⟨p, p, false, "0", none, true, some ti⟩ : PatchEntry)) ::
              tagParsedFrom (k + 1) (ti + 1) pt from rfl]
        rw [alookup_append_skip _ _ _ hmemk, alookup_cons, if_pos rfl]
      rw [parse_lines_cons _ _ _ _ _ (parse_step_macro_gen (mi + 1) k st _ hlook)]
      rw [show mi + 1 + 1 = mi + 2 from by omega]
      have hp2 : aset st.patches k ({ (⟨p, p, false, "0", none, true, some ti⟩ : PatchEntry) with strip := "1", macro_linenum := some (mi + 1), applyFlag := true }) =
          (pre ++ [(k, (⟨p, p, true, "1", some (mi + 1), true, some ti⟩ : PatchEntry))]) ++
            tagParsedFrom (k + 1) (ti + 1) pt := by
        rw [hst]
        rw [show tagParsedFrom k ti (p :: pt) =
            (k, (⟨p, p, false, "0", none, true, some ti⟩ : PatchEntry)) ::
              tagParsedFrom (k + 1) (ti + 1) pt from rfl]
        rw [aset_append_skip _ _ _ _ hmemk (by rw [amem_cons]; simp)]
        rw [aset_cons_head _ _ _ _ (amem_tagParsedFrom pt (k + 1) (ti + 1) k (by omega))]
        simp [List.append_assoc]
      rw [ih (k + 1) (ti + 1) (mi + 2)
        (pre ++ [(k, (⟨p, p, true, "1", some (mi + 1), true, some ti⟩ : PatchEntry))])
        ({ st with patches := aset st.patches k ({ (⟨p, p, false, "0", none, true, some ti⟩ : PatchEntry) with strip := "1", macro_linenum := some (mi + 1), applyFlag := true }) })
        (fun x hx => hP x (by simp [hx]))
        (by
          intro j hj
          rw [amem_append] at hj
          rcases Bool.or_eq_true _ _ |>.mp hj with h | h
          · exact Nat.lt_succ_of_lt (hpre j h)
          · rw [amem_cons,
                show amem ([] : List (Nat × PatchEntry)) j = false from rfl] at h
            simp at h
            omega)
        hp2]
      rw [show mi + 2 + 2 * ((pt.length : Nat) : Int) =
          mi + 2 * (((p :: pt).length : Nat) : Int) from by
        simp only [List.length_cons]
        push_cast
        ring]
      simp [fullParsedFrom, List.append_assoc]

/-! ### Re-parsing the updated document: the three phases of parse_content -/

theorem filter_newBlockFrom (P : List String) (k : Nat) (hk : 1 ≤ k) :
    (newBlockFrom k P).filter (fun kv => ([(0 : Int)]).contains ((kv.1 : Nat) : Int)) = [] := by
  induction P generalizing k with
  | nil => rfl
  | cons p pt ih =>
      rw [show newBlockFrom k (p :: pt) =
          (k, newPatchEntry p) :: newBlockFrom (k + 1) pt from rfl]
      rw [List.filter_cons]
      have hc : ([(0 : Int)]).contains ((k : Nat) : Int) = false := by
        simp
        omega
      simp only [hc]
      simp only [Bool.false_eq_true, if_false]
      exact ih (k + 1) (by omega)

theorem filter_patchesAfterUpdate (P : List String) :
    (patchesAfterUpdate P).filter (fun kv => ([(0 : Int)]).contains ((kv.1 : Nat) : Int)) =
      [(0, manualEntryD1)] := by
  rw [patchesAfterUpdate_eq, List.filter_append,
      filter_newBlockFrom P 1 (by omega), List.append_nil]
  rfl

theorem prePassIgnore_D1updated (P : List String) (hP : ∀ p ∈ P, WfName p = true) :
    prePassIgnore (D1updated P) [] = .ok [(0 : Int)] := by
  have h1 : prePassIgnore (D1updated P) [] =
      prePassIgnore (((tagBlockFrom 1 P ++ ["%prep", "%setup -q", "%patch0 -p1"]) ++
        macroBlockFrom 1 P) ++ ["%build"]) [(0 : Int)] := rfl
  rw [h1]
  rw [List.append_assoc (tagBlockFrom 1 P ++ ["%prep", "%setup -q", "%patch0 -p1"])
        (macroBlockFrom 1 P) ["%build"],
      List.append_assoc (tagBlockFrom 1 P) ["%prep", "%setup -q", "%patch0 -p1"]]
  rw [prePass_tagBlock]
  rw [show prePassIgnore ((["%prep", "%setup -q", "%patch0 -p1"] : List String) ++
      (macroBlockFrom 1 P ++ ["%build"])) [(0 : Int)] =
      prePassIgnore (macroBlockFrom 1 P ++ ["%build"]) [(0 : Int)] from rfl]
  rw [prePass_macroBlock _ _ _ _ hP]
  rfl

theorem parse_lines_D1updated (P : List String) (hP : ∀ p ∈ P, WfName p = true) :
    parse_lines (D1updated P) 0
      (⟨stD1.sources, [(0, manualEntryD1)], [(0 : Int)], {}⟩ : ParseState) =
      .ok (⟨stD1.sources, reParsedD1 P, [(0 : Int)], locReParsedD1 P.length⟩ : ParseState) := by
  have h5 : parse_lines (D1updated P) 0
      (⟨stD1.sources, [(0, manualEntryD1)], [(0 : Int)], {}⟩ : ParseState) =
      parse_lines (((tagBlockFrom 1 P ++ ["%prep", "%setup -q", "%patch0 -p1"]) ++
          macroBlockFrom 1 P) ++ ["%build"]) 5
        (⟨stD1.sources, [(0, manualEntryD1)], [(0 : Int)],
          (⟨none, some 0, none⟩ : SpecLoc)⟩ : ParseState) := rfl
  rw [h5]
  rw [List.append_assoc (tagBlockFrom 1 P ++ ["%prep", "%setup -q", "%patch0 -p1"])
        (macroBlockFrom 1 P) ["%build"],
      List.append_assoc (tagBlockFrom 1 P) ["%prep", "%setup -q", "%patch0 -p1"]]
  rw [parse_lines_tagBlock P 1 5 _ _ hP
      (by
        intro j hj
        rw [show amem ([(0, manualEntryD1)] : List (Nat × PatchEntry)) j =
            (decide (0 = j) || false) from rfl] at hj
        simp at hj
        omega)
      rfl (by omega)]
  rw [show (["%prep", "%setup -q", "%patch0 -p1"] : List String) ++
      (macroBlockFrom 1 P ++ ["%build"]) =
      "%prep" :: "%setup -q" :: "%patch0 -p1" :: (macroBlockFrom 1 P ++ ["%build"]) from rfl]
  rw [parse_lines_cons _ _ _ _ _ (parse_step_prep (5 + (P.length : Int)) _)]
  rw [parse_lines_cons _ _ _ _ _ (parse_step_setup (5 + (P.length : Int) + 1) _)]
  rw [show ("%patch0 -p1" : String) = genMacroLine 0 "1" from rfl]
  rw [parse_lines_cons _ _ _ _ _ (parse_step_macro_gen (5 + (P.length : Int) + 1 + 1) 0 _
      manualEntryD1 (by
        rw [show alookup ([(0, manualEntryD1)] ++ tagParsedFrom 1 5 P) 0 =
            alookup ((0, manualEntryD1) :: tagParsedFrom 1 5 P) 0 from rfl]
        rw [alookup_cons, if_pos rfl]))]
  rw [show (5 + (P.length : Int) + 1) = 6 + P.length from by omega]
  rw [show (6 + (P.length : Int) + 1) = 7 + P.length from by omega]
  rw [show (7 + (P.length : Int) + 1) = 8 + P.length from by omega]
  rw [List.singleton_append]
  rw [aset_cons_head _ _ _ _ (amem_tagParsedFrom P 1 5 0 (by omega))]
  rw [parse_lines_macroBlock P 1 5 (8 + (P.length : Int)) ["%build"]
      [(0, manualReParsedD1 P.length)] _ hP
      (by
        intro j hj
        rw [show amem ([(0, manualReParsedD1 P.length)] : List (Nat × PatchEntry)) j =
            (decide (0 = j) || false) from rfl] at hj
        simp at hj
        omega)
      rfl]
  rw [parse_lines_cons _ _ _ _ _ (parse_step_noop (8 + (P.length : Int) + 2 * P.length)
      "%build" _ rfl rfl rfl rfl rfl rfl rfl)]
  rfl

theorem parse_content_D1updated (P : List String) (hP : ∀ p ∈ P, WfName p = true) :
    parse_content ⟨D1updated P, patchesAfterUpdate P, stD1.sources⟩ =
      .ok (⟨D1updated P, reParsedD1 P, stD1.sources⟩, locReParsedD1 P.length) := by
  unfold parse_content
  rw [prePassIgnore_D1updated P hP, bindOk]
  dsimp only
  rw [filter_patchesAfterUpdate P]
  rw [parse_lines_D1updated P hP, bindOk]

/-! ### The autoupdate observations on the re-parsed state -/

theorem alookup_fullParsedFrom_lt (ps : List String) (k : Nat) (ti mi : Int)
    (j : Nat) (e : PatchEntry)
    (h : alookup (fullParsedFrom k ti mi ps) j = some e) : k ≤ j := by
  induction ps generalizing k ti mi with
  | nil => exact absurd h (by simp [fullParsedFrom, alookup_nil])
  | cons p pt ih =>
      rw [show fullParsedFrom k ti mi (p :: pt) =
          (k, (⟨p, p, true, "1", some (mi + 1), true, some ti⟩ : PatchEntry)) ::
            fullParsedFrom (k + 1) (ti + 1) (mi + 2) pt from rfl] at h
      rw [alookup_cons] at h
      split at h
      · omega
      · have := ih (k + 1) (ti + 1) (mi + 2) h
        omega

theorem akeys_fullParsedFrom (ps : List String) (k : Nat) (ti mi : Int) :
    akeys (fullParsedFrom k ti mi ps) = List.range' k ps.length := by
  induction ps generalizing k ti mi with
  | nil => rfl
  | cons p pt ih =>
      show k :: akeys (fullParsedFrom (k + 1) (ti + 1) (mi + 2) pt) =
        List.range' k (pt.length + 1)
      rw [ih (k + 1) (ti + 1) (mi + 2)]
      rfl

theorem sortedKeys_reParsedD1 (P : List String) :
    asortedKeys (reParsedD1 P) = 0 :: List.range' 1 P.length := by
  unfold asortedKeys reParsedD1
  show sortNat (0 :: akeys (fullParsedFrom 1 5 (8 + (P.length : Int)) P)) = _
  rw [akeys_fullParsedFrom]
  apply sortNat_sorted
  rw [List.pairwise_cons]
  constructor
  · intro y hy
    omega
  · have := List.pairwise_lt_range' 1 P.length
    exact this.imp (fun hab => Nat.le_of_lt hab)

theorem filterMap_auto_fullParsed (ps : List String) (k : Nat) (ti mi : Int)
    (pat : List (Nat × PatchEntry))
    (hlook : ∀ j e, alookup (fullParsedFrom k ti mi ps) j = some e →
      alookup pat j = some e) :
    (List.range' k ps.length).filterMap (fun n =>
      match alookup pat n with
      | some p => if p.autoupdate then some p.filename else none
      | none => none) = ps := by
  induction ps generalizing k ti mi with
  | nil => rfl
  | cons p pt ih =>
      rw [show List.range' k (p :: pt).length = k :: List.range' (k + 1) pt.length from rfl]
      rw [List.filterMap_cons]
      have hk : alookup pat k =
          some (⟨p, p, true, "1", some (mi + 1), true, some ti⟩ : PatchEntry) :=
        hlook k _ (by
          rw [show fullParsedFrom k ti mi (p :: pt) =
              (k, (⟨p, p, true, "1", some (mi + 1), true, some ti⟩ : PatchEntry)) ::
                fullParsedFrom (k + 1) (ti + 1) (mi + 2) pt from rfl]
          rw [alookup_cons, if_pos rfl])
      rw [hk]
      dsimp only
      rw [if_pos (show (⟨p, p, true, "1", some (mi + 1), true, some ti⟩ :
          PatchEntry).autoupdate = true from rfl)]
      rw [ih (k + 1) (ti + 1) (mi + 2) (fun j e hj => hlook j e (by
        rw [show fullParsedFrom k ti mi (p :: pt) =
            (k, (⟨p, p, true, "1", some (mi + 1), true, some ti⟩ : PatchEntry)) ::
              fullParsedFrom (k + 1) (ti + 1) (mi + 2) pt from rfl]
        rw [alookup_cons]
        have := alookup_fullParsedFrom_lt pt (k + 1) (ti + 1) (mi + 2) j e hj
        rw [if_neg (by omega)]
        exact hj))]

theorem filter_auto_fullParsed (ps : List String) (k : Nat) (ti mi : Int)
    (pat : List (Nat × PatchEntry))
    (hlook : ∀ j e, alookup (fullParsedFrom k ti mi ps) j = some e →
      alookup pat j = some e) :
    (List.range' k ps.length).filter (fun n =>
      match alookup pat n with
      | some p => p.autoupdate
      | none => false) = List.range' k ps.length := by
  induction ps generalizing k ti mi with
  | nil => rfl
  | cons p pt ih =>
      rw [show List.range' k (p :: pt).length = k :: List.range' (k + 1) pt.length from rfl]
      rw [List.filter_cons]
      have hk : alookup pat k =
          some (⟨p, p, true, "1", some (mi + 1), true, some ti⟩ : PatchEntry) :=
        hlook k _ (by
          rw [show fullParsedFrom k ti mi (p :: pt) =
              (k, (⟨p, p, true, "1", some (mi + 1), true, some ti⟩ : PatchEntry)) ::
                fullParsedFrom (k + 1) (ti + 1) (mi + 2) pt from rfl]
          rw [alookup_cons, if_pos rfl])
      rw [hk]
      dsimp only
      rw [if_pos (by decide)]
      rw [ih (k + 1) (ti + 1) (mi + 2) (fun j e hj => hlook j e (by
        rw [show fullParsedFrom k ti mi (p :: pt) =
            (k, (⟨p, p, true, "1", some (mi + 1), true, some ti⟩ : PatchEntry)) ::
              fullParsedFrom (k + 1) (ti + 1) (mi + 2) pt from rfl]
        rw [alookup_cons]
        have := alookup_fullParsedFrom_lt pt (k + 1) (ti + 1) (mi + 2) j e hj
        rw [if_neg (by omega)]
        exact hj))]

theorem alookup_reParsedD1_new (P : List String) (j : Nat) (e : PatchEntry)
    (hj : alookup (fullParsedFrom 1 5 (8 + (P.length : Int)) P) j = some e) :
    alookup (reParsedD1 P) j = some e := by
  unfold reParsedD1
  rw [alookup_cons]
  have := alookup_fullParsedFrom_lt P 1 5 (8 + (P.length : Int)) j e hj
  rw [if_neg (by omega)]
  exact hj

theorem autoFilenames_reParsedD1 (P : List String) :
    autoFilenames ⟨D1updated P, reParsedD1 P, stD1.sources⟩ = P := by
  unfold autoFilenames
  rw [show (⟨D1updated P, reParsedD1 P, stD1.sources⟩ : SpecState).patches =
      reParsedD1 P from rfl]
  rw [sortedKeys_reParsedD1]
  rw [List.filterMap_cons]
  rw [show alookup (reParsedD1 P) 0 = some (manualReParsedD1 P.length) from by
    unfold reParsedD1
    rw [alookup_cons, if_pos rfl]]
  dsimp only
  rw [if_neg (show ¬ (manualReParsedD1 P.length).autoupdate = true from by
    rw [show (manualReParsedD1 P.length).autoupdate = false from rfl]
    simp)]
  exact filterMap_auto_fullParsed P 1 5 (8 + (P.length : Int)) (reParsedD1 P)
    (alookup_reParsedD1_new P)

theorem autoIndices_reParsedD1 (P : List String) :
    autoIndices ⟨D1updated P, reParsedD1 P, stD1.sources⟩ = List.range' 1 P.length := by
  unfold autoIndices
  rw [show (⟨D1updated P, reParsedD1 P, stD1.sources⟩ : SpecState).patches =
      reParsedD1 P from rfl]
  rw [sortedKeys_reParsedD1]
  rw [List.filter_cons]
  rw [show alookup (reParsedD1 P) 0 = some (manualReParsedD1 P.length) from by
    unfold reParsedD1
    rw [alookup_cons, if_pos rfl]]
  dsimp only
  rw [if_neg (show ¬ (manualReParsedD1 P.length).autoupdate = true from by
    rw [show (manualReParsedD1 P.length).autoupdate = false from rfl]
    simp)]
  exact filter_auto_fullParsed P 1 5 (8 + (P.length : Int)) (reParsedD1 P)
    (alookup_reParsedD1_new P)

/-- C1: on the representative spec document D1 (name tag, one source, one
manually maintained ignorepatch entry, two previously auto generated
patches, prep section), for every list P of well formed patch file names,
update_patches followed by re-parsing the rewritten content yields a
patches dict whose autoupdate entries carry exactly the filenames P in
index order, renumbered from 1 (one past the manually maintained index 0),
while the manually maintained declaration lines (the first four lines,
among them the Patch0 tag line) are byte-identical to the original
document. -/
theorem update_patches_reparse_roundtrip (P : List String)
    (hP : ∀ p ∈ P, WfName p = true) :
    update_patches stD1 P = .ok ⟨D1updated P, patchesAfterUpdate P, stD1.sources⟩ ∧
    parse_content ⟨D1updated P, patchesAfterUpdate P, stD1.sources⟩ =
      .ok (⟨D1updated P, reParsedD1 P, stD1.sources⟩, locReParsedD1 P.length) ∧
    autoFilenames ⟨D1updated P, reParsedD1 P, stD1.sources⟩ = P ∧
    autoIndices ⟨D1updated P, reParsedD1 P, stD1.sources⟩ = List.range' 1 P.length ∧
    alookup (reParsedD1 P) 0 = some (manualReParsedD1 P.length) ∧
    (D1updated P).take 4 = D1.take 4 :=
  ⟨update_patches_D1 P, parse_content_D1updated P hP,
   autoFilenames_reParsedD1 P, autoIndices_reParsedD1 P,
   by unfold reParsedD1; rw [alookup_cons, if_pos rfl], rfl⟩

/-- Witness for C1 at the concrete patch list (a.patch, b.patch). -/
theorem update_patches_reparse_roundtrip_witness :
    (∀ p ∈ (["a.patch", "b.patch"] : List String), WfName p = true) ∧
    (update_patches stD1 ["a.patch", "b.patch"] =
        .ok ⟨D1updated ["a.patch", "b.patch"],
          patchesAfterUpdate ["a.patch", "b.patch"], stD1.sources⟩ ∧
      parse_content ⟨D1updated ["a.patch", "b.patch"],
          patchesAfterUpdate ["a.patch", "b.patch"], stD1.sources⟩ =
        .ok (⟨D1updated ["a.patch", "b.patch"], reParsedD1 ["a.patch", "b.patch"],
          stD1.sources⟩,
          locReParsedD1 (["a.patch", "b.patch"] : List String).length) ∧
      autoFilenames ⟨D1updated ["a.patch", "b.patch"], reParsedD1 ["a.patch", "b.patch"],
        stD1.sources⟩ = ["a.patch", "b.patch"] ∧
      autoIndices ⟨D1updated ["a.patch", "b.patch"], reParsedD1 ["a.patch", "b.patch"],
        stD1.sources⟩ = List.range' 1 (["a.patch", "b.patch"] : List String).length ∧
      alookup (reParsedD1 ["a.patch", "b.patch"]) 0 =
        some (manualReParsedD1 (["a.patch", "b.patch"] : List String).length) ∧
      (D1updated ["a.patch", "b.patch"]).take 4 = D1.take 4) :=
  ⟨by decide, update_patches_reparse_roundtrip ["a.patch", "b.patch"] (by decide)⟩

/-! ### No-anchor documents: the dead %prep fallback -/

/-- C5 (amended): when the re-parse succeeds but leaves no insertion anchor
at all (no surviving patch entries, so no old applicator or declaration
lines and lastmacro stays 0, and no setup macro position), update_patches
does not raise the clean fatal format error the spec describes: the
always-true setupmacro key test hides the %prep fallback and the operation
crashes with an uncontrolled TypeError (None + 1).  The document is still
left unmodified, because the exception propagates before any line is
inserted or removed. -/
theorem update_patches_no_anchor_typeError (st st1 : SpecState) (loc : SpecLoc)
    (P : List String)
    (hparse : parse_content st = .ok (st1, loc))
    (hpat : st1.patches = [])
    (hsetup : loc.setupMarker = none) :
    update_patches st P = .error .typeError := by
  unfold update_patches
  rw [hparse, bindOk]
  dsimp only
  rw [hpat]
  rw [show (asortedKeys ([] : List (Nat × PatchEntry))).foldlM (updScanKey st1.content)
      (⟨0, 0, 0, [], [], []⟩ : UpdAcc) = .ok (⟨0, 0, 0, [], [], []⟩ : UpdAcc) from rfl,
    bindOk]
  dsimp only
  rw [show sortInt [] = ([] : List Int) from rfl]
  rw [show ([] : List Int).getLast? = none from rfl]
  dsimp only
  rw [if_neg (by simp)]
  rw [hsetup]
  rfl

/-! ### Helper steps for the duplicate-tag documents -/

theorem parse_lines_cons_error (line : String) (rest : List String) (i : Int)
    (st : ParseState) (e : PyErr) (h : parse_step i line st = .error e) :
    parse_lines (line :: rest) i st = .error e := by
  conv_lhs => rw [parse_lines]
  rw [h]
  rfl

theorem prePass_ignoreLine (n : Nat) (rest : List String) (acc : List Int) :
    prePassIgnore (mkIgnoreLine n :: rest) acc = prePassIgnore rest [(n : Int)] := by
  conv_lhs => rw [prePassIgnore]
  rw [gbptagMatch_ignoreLine n]
  dsimp only
  rw [if_pos rfl]
  rw [pySplitWs_natRepr, show parseIntList [natRepr n] = .ok [(n : Int)] from by
    unfold parseIntList
    rw [parseIntTok_natRepr n]
    rfl]
  rfl

theorem WfName_of_WfName2 (a : String) (h : WfName2 a = true) : WfName a = true := by
  unfold WfName2 at h
  exact (Bool.and_eq_true _ _ |>.mp h).1

theorem len2_of_WfName2 (a : String) (h : WfName2 a = true) : 2 ≤ a.data.length := by
  unfold WfName2 at h
  have h2 := (Bool.and_eq_true _ _ |>.mp h).2
  exact of_decide_eq_true h2

theorem parse_step_src_new (i : Int) (n : Nat) (a : String) (st : ParseState)
    (ha : WfName2 a = true)
    (halu : alookup st.sources n = none) :
    parse_step i (mkSourceLine n a) st =
      .ok { st with sources := aset st.sources n ⟨a, a, i⟩ } := by
  unfold parse_step
  rw [gbptagMatch_of_head _ _ _ (data_mkSourceLine n a) (by decide) (by decide),
      sourceMatch_srcLike n a (ne_nil_of_WfName a (WfName_of_WfName2 a ha))
        (safe_of_WfName a (WfName_of_WfName2 a ha)) (len2_of_WfName2 a ha)]
  dsimp only
  simp only [pure_bind, Option.getD_some]
  rw [halu]
  simp [pure, Except.pure]

theorem parse_step_src_dup (i : Int) (n : Nat) (a : String) (st : ParseState)
    (e : SourceEntry) (ha : WfName2 a = true)
    (halu : alookup st.sources n = some e) :
    parse_step i (mkSourceLine n a) st =
      .ok { st with sources := aset st.sources n ({ e with tag_linenum := i }) } := by
  unfold parse_step
  rw [gbptagMatch_of_head _ _ _ (data_mkSourceLine n a) (by decide) (by decide),
      sourceMatch_srcLike n a (ne_nil_of_WfName a (WfName_of_WfName2 a ha))
        (safe_of_WfName a (WfName_of_WfName2 a ha)) (len2_of_WfName2 a ha)]
  dsimp only
  simp only [pure_bind, Option.getD_some]
  rw [halu]
  simp [pure, Except.pure]

theorem isPySpace_singleton_space : ∀ c ∈ ([' '] : List Char), isPySpace c = true := by
  intro c hc
  rw [List.mem_singleton] at hc
  subst hc
  decide

/-- C5 counterexample: the one-line document "hello" parses, has no patch
entries, no setup macro and no prep anchor; update_patches on it does not
abort with a controlled format error but crashes with the TypeError of
None + 1. -/
theorem update_patches_no_anchor_cex :
    update_patches ⟨["hello"], [], []⟩ ["a.patch"] = .error .typeError := rfl

/-- Witness for the amended C5 theorem at the document "hello". -/
theorem update_patches_no_anchor_typeError_witness :
    (parse_content ⟨["hello"], [], []⟩ =
        .ok (⟨["hello"], [], []⟩, (⟨none, none, none⟩ : SpecLoc)) ∧
      (⟨["hello"], [], []⟩ : SpecState).patches = [] ∧
      (⟨none, none, none⟩ : SpecLoc).setupMarker = none) ∧
    update_patches ⟨["hello"], [], []⟩ ["a.patch"] = .error .typeError :=
  ⟨⟨rfl, rfl, rfl⟩, update_patches_no_anchor_typeError ⟨["hello"], [], []⟩
    ⟨["hello"], [], []⟩ ⟨none, none, none⟩ ["a.patch"] rfl rfl rfl⟩

/-- C7: a document whose two lines declare the same Patch index with the
index not in the ignore list aborts parsing with the fatal
duplicate-declaration error; with a gbpignorepatch annotation for that
index in front, parsing succeeds and the surviving entry keeps the declared
name of the first occurrence while its recorded declaration-tag line number
moves to the later occurrence (line 2). -/
theorem parse_duplicate_patch_tag (n : Nat) (a b : String)
    (ha : WfName a = true) (hb : WfName b = true) :
    parse_content ⟨[mkPatchTagLine n a, mkPatchTagLine n b], [], []⟩ =
      .error .duplicatePatch ∧
    parse_content ⟨[mkIgnoreLine n, mkPatchTagLine n a, mkPatchTagLine n b], [], []⟩ =
      .ok (⟨[mkIgnoreLine n, mkPatchTagLine n a, mkPatchTagLine n b],
        [(n, (⟨a, a, false, "0", none, false, some 2⟩ : PatchEntry))], []⟩,
        (⟨none, none, none⟩ : SpecLoc)) := by
  constructor
  · unfold parse_content
    rw [prePass_cons_none _ _ _
          (gbptagMatch_of_head _ _ _ (data_mkPatchTagLine n a) (by decide) (by decide)),
        prePass_cons_none _ _ _
          (gbptagMatch_of_head _ _ _ (data_mkPatchTagLine n b) (by decide) (by decide))]
    rw [show prePassIgnore [] ([] : List Int) = .ok [] from rfl, bindOk]
    dsimp only
    rw [parse_lines_cons _ _ _ _ _ (parse_step_tag_new 0 n [' '] a _ _
        (data_mkPatchTagLine n a) isPySpace_singleton_space
        (ne_nil_of_WfName a ha) (safe_of_WfName a ha)
        (show alookup ([] : List (Nat × PatchEntry)) n = none from rfl))]
    rw [parse_lines_cons_error _ _ _ _ _ (parse_step_tag_dup (0 + 1) n [' '] b _ _ _
        (data_mkPatchTagLine n b) isPySpace_singleton_space
        (ne_nil_of_WfName b hb) (safe_of_WfName b hb)
        (alookup_aset_self [] n _)
        (show ([] : List Int).contains ((n : Nat) : Int) = false from rfl))]
    rfl
  · unfold parse_content
    rw [prePass_ignoreLine n _ []]
    rw [prePass_cons_none _ _ _
          (gbptagMatch_of_head _ _ _ (data_mkPatchTagLine n a) (by decide) (by decide)),
        prePass_cons_none _ _ _
          (gbptagMatch_of_head _ _ _ (data_mkPatchTagLine n b) (by decide) (by decide))]
    rw [show prePassIgnore [] [(n : Int)] = .ok [(n : Int)] from rfl, bindOk]
    dsimp only
    rw [parse_lines_cons _ _ _ _ _ (parse_step_ignoreLine 0 n _)]
    rw [parse_lines_cons _ _ _ _ _ (parse_step_tag_new (0 + 1) n [' '] a _ _
        (data_mkPatchTagLine n a) isPySpace_singleton_space
        (ne_nil_of_WfName a ha) (safe_of_WfName a ha)
        (show alookup ([] : List (Nat × PatchEntry)) n = none from rfl))]
    rw [parse_lines_cons _ _ _ _ _ (parse_step_tag_dupIgnored (0 + 1 + 1) n [' '] b _ _ _
        (data_mkPatchTagLine n b) isPySpace_singleton_space
        (ne_nil_of_WfName b hb) (safe_of_WfName b hb)
        (alookup_aset_self [] n _)
        (by simp))]
    rw [aset_aset]
    rw [show (([(n : Int)]).contains ((n : Nat) : Int)) = true from by simp]
    rw [show ((0 : Int) + 1 + 1) = 2 from by omega]
    rfl

/-- Witness for C7 at index 3 with names a.patch and b.patch. -/
theorem parse_duplicate_patch_tag_witness :
    (WfName "a.patch" = true ∧ WfName "b.patch" = true) ∧
    (parse_content ⟨[mkPatchTagLine 3 "a.patch", mkPatchTagLine 3 "b.patch"], [], []⟩ =
        .error .duplicatePatch ∧
      parse_content ⟨[mkIgnoreLine 3, mkPatchTagLine 3 "a.patch",
          mkPatchTagLine 3 "b.patch"], [], []⟩ =
        .ok (⟨[mkIgnoreLine 3, mkPatchTagLine 3 "a.patch", mkPatchTagLine 3 "b.patch"],
          [(3, (⟨"a.patch", "a.patch", false, "0", none, false, some 2⟩ : PatchEntry))], []⟩,
          (⟨none, none, none⟩ : SpecLoc))) :=
  ⟨⟨by decide, by decide⟩,
   parse_duplicate_patch_tag 3 "a.patch" "b.patch" (by decide) (by decide)⟩

/-- C10: a document whose two lines declare the same Source index parses
without error (unlike the duplicate Patch case): the surviving source entry
keeps the declared name of the first occurrence and only its recorded
declaration-tag line number moves to the later occurrence (line 1). -/
theorem parse_duplicate_source_tag (n : Nat) (a b : String)
    (ha : WfName2 a = true) (hb : WfName2 b = true) :
    parse_content ⟨[mkSourceLine n a, mkSourceLine n b], [], []⟩ =
      .ok (⟨[mkSourceLine n a, mkSourceLine n b], [],
        [(n, (⟨a, a, 1⟩ : SourceEntry))]⟩, (⟨none, none, none⟩ : SpecLoc)) := by
  unfold parse_content
  rw [prePass_cons_none _ _ _
        (gbptagMatch_of_head _ _ _ (data_mkSourceLine n a) (by decide) (by decide)),
      prePass_cons_none _ _ _
        (gbptagMatch_of_head _ _ _ (data_mkSourceLine n b) (by decide) (by decide))]
  rw [show prePassIgnore [] ([] : List Int) = .ok [] from rfl, bindOk]
  dsimp only
  rw [parse_lines_cons _ _ _ _ _ (parse_step_src_new 0 n a _ ha
      (show alookup ([] : List (Nat × SourceEntry)) n = none from rfl))]
  rw [parse_lines_cons _ _ _ _ _ (parse_step_src_dup (0 + 1) n b _ _ hb
      (alookup_aset_self [] n _))]
  rw [aset_aset]
  rw [show ((0 : Int) + 1) = 1 from by omega]
  rfl

/-- Witness for C10 at index 2 with archives aa.tar and bb.tar. -/
theorem parse_duplicate_source_tag_witness :
    (WfName2 "aa.tar" = true ∧ WfName2 "bb.tar" = true) ∧
    parse_content ⟨[mkSourceLine 2 "aa.tar", mkSourceLine 2 "bb.tar"], [], []⟩ =
      .ok (⟨[mkSourceLine 2 "aa.tar", mkSourceLine 2 "bb.tar"], [],
        [(2, (⟨"aa.tar", "aa.tar", 1⟩ : SourceEntry))]⟩, (⟨none, none, none⟩ : SpecLoc)) :=
  ⟨⟨by decide, by decide⟩,
   parse_duplicate_source_tag 2 "aa.tar" "bb.tar" (by decide) (by decide)⟩

/-! ### The unconditional entry TypeError of the pq script commands -/

/-- C3 (code bug): no import invocation ever copies the patch directory
aside, so the scratch directory lifecycle the spec describes never begins:
gbp/scripts/pq.py line 249 calls is_pq_branch(branch) without the options
argument that the definition in gbp/scripts/common/pq.py line 67 requires,
and every run of import_quilt_patches raises TypeError right there — before
safe_patches, before the series read and before the retry loop.  (Were that
call fixed, the post-entry code would still leak the scratch directory on
the failure exits: see import_body_scratch_leak on the body model
of the import.) -/
theorem import_quilt_patches_entry_typeError (r : RepoFs) (branch : String)
    (commits : List String) (queue : List QPatch)
    (applies : String → QPatch → Bool) (force : Bool) :
    import_quilt_patches r branch commits queue applies force =
      .error .pyTypeError := rfl

/-- Witness for C3 at a concrete two-candidate import invocation. -/
theorem import_quilt_patches_entry_typeError_witness :
    import_quilt_patches sampleRepo "master" ["k1", "k2"] [⟨"p1"⟩]
      (fun _ _ => false) false = .error .pyTypeError :=
  import_quilt_patches_entry_typeError sampleRepo "master" ["k1", "k2"] [⟨"p1"⟩]
    (fun _ _ => false) false

/-- C4 (code bug): export on an empty queue-vs-base diff does not report
that there is nothing to do, and it performs no file or branch changes only
because it crashes first: gbp/scripts/pq.py line 174 calls
is_pq_branch(branch) without the required options argument, so every run of
export_patches raises TypeError at entry, before the unconditional rmtree
of the patch directory and before the no-op check.  The existing patch
directory survives, but no run ever reaches the nothing-to-do report the
claim describes.  (Were the call fixed, the post-entry code would rmtree
the existing patch directory even on an empty diff: see
export_body_empty_queue_removes_dir on export_patches_body.) -/
theorem export_patches_entry_typeError (dir0 : Option (List (String × String)))
    (r : RepoFs) (branch : String) (commits : List CommitData)
    (numbered dropOpt : Bool) :
    export_patches dir0 r branch commits numbered dropOpt =
      .error .pyTypeError := rfl

/-- Witness for C4 at the empty-queue invocation with an existing on-disk
patch directory. -/
theorem export_patches_entry_typeError_witness :
    export_patches
      (some [("debian/patches/old.patch", "x"),
             ("debian/patches/series", "old.patch\n")])
      sampleRepo "master" [] true false = .error .pyTypeError :=
  export_patches_entry_typeError
    (some [("debian/patches/old.patch", "x"),
           ("debian/patches/series", "old.patch\n")])
    sampleRepo "master" [] true false

/-- C6 (code bug): import never fails with the "Couldn't apply patches"
error and never performs the per-candidate hard reset, branch switch and
queue-branch deletion the claim describes: the one-argument is_pq_branch
call at gbp/scripts/pq.py line 249 raises TypeError on every invocation
before the retry loop is reached.  (The loop itself, modeled by importLoop
and import_quilt_patches_body, would behave as the spec says were the call
fixed: see import_body_exhausted_no_queue_branch.) -/
theorem import_never_couldnt_apply (r : RepoFs) (branch : String)
    (commits : List String) (queue : List QPatch)
    (applies : String → QPatch → Bool) (force : Bool) :
    import_quilt_patches r branch commits queue applies force =
      .error .pyTypeError ∧
    import_quilt_patches r branch commits queue applies force ≠
      .error .couldntApply :=
  ⟨rfl, fun h => GbpErr.noConfusion (Except.error.inj h)⟩

/-- Witness for C6 at a concrete exhausting invocation (two candidates, one
patch that never applies). -/
theorem import_never_couldnt_apply_witness :
    import_quilt_patches sampleRepo "master" ["k1", "k2"] [⟨"p1"⟩]
      (fun _ _ => false) false = .error .pyTypeError ∧
    import_quilt_patches sampleRepo "master" ["k1", "k2"] [⟨"p1"⟩]
      (fun _ _ => false) false ≠ .error .couldntApply :=
  import_never_couldnt_apply sampleRepo "master" ["k1", "k2"] [⟨"p1"⟩]
    (fun _ _ => false) false

end GbpRpm
